import Mathlib

/-!
Verification development for the ledbetter LED-driver firmware.

The Lean definitions below are a shallow embedding of the Rust sources:
  src/jsonrpc.rs  - JSON-RPC 2.0 request/response codec
  src/control.rs  - RPC dispatcher (Controller, handle_request, process_one)
  src/driver.rs   - Driver lifecycle state machine (DriverImpl)
  src/wasm_program.rs - WebAssembly program sandbox host (WasmProgram)

Machine integers are modelled as Nat/Int with explicit truncation (% 256 for
a u32 -> u8 cast) where the source performs one.  Fallible Rust code returns
Except/Option.  Raw JSON fragments (serde_json RawValue) are modelled as the
exact strings they hold.
-/

set_option linter.unusedVariables false

namespace LedBetter

/-! ### JSON values

An abstract syntax for the JSON documents exchanged on the control plane.
JSON numbers are restricted to integers, which covers every number the
protocol produces (request ids, array params). -/

inductive Json where
  | null : Json
  | bool : Bool → Json
  | num : Int → Json
  | str : String → Json
  | arr : List Json → Json
  | obj : List (String × Json) → Json
deriving Repr, Inhabited

/-- Whitespace characters admitted between JSON tokens. -/
def jsonWs (c : Char) : Bool :=
  c = ' ' || c = '\n' || c = '\r' || c = '\t'

/-- Drop leading JSON whitespace. -/
def skipWs : List Char → List Char
  | [] => []
  | c :: cs => if jsonWs c then skipWs cs else c :: cs

def isDigitChar (c : Char) : Bool :=
  '0' ≤ c && c ≤ '9'

def hexDigitVal (c : Char) : Option Nat :=
  if '0' ≤ c ∧ c ≤ '9' then some (c.toNat - '0'.toNat)
  else if 'a' ≤ c ∧ c ≤ 'f' then some (c.toNat - 'a'.toNat + 10)
  else if 'A' ≤ c ∧ c ≤ 'F' then some (c.toNat - 'A'.toNat + 10)
  else none

/-- Parse the body of a JSON string after the opening quote.  Returns the
decoded string, whether any escape sequence occurred (serde can only borrow
a `&str` from an escape-free string), and the remaining input. -/
def parseStrBody (fuel : Nat) (acc : List Char) (esc : Bool) (cs : List Char) :
    Option (String × Bool × List Char) :=
  match fuel, cs with
  | 0, _ => none
  | _, [] => none
  | fuel + 1, c :: cs =>
    if c = '"' then
      some (String.mk acc.reverse, esc, cs)
    else if c = '\\' then
      match cs with
      | [] => none
      | e :: cs2 =>
        if e = '"' then parseStrBody fuel ('"' :: acc) true cs2
        else if e = '\\' then parseStrBody fuel ('\\' :: acc) true cs2
        else if e = '/' then parseStrBody fuel ('/' :: acc) true cs2
        else if e = 'n' then parseStrBody fuel ('\n' :: acc) true cs2
        else if e = 't' then parseStrBody fuel ('\t' :: acc) true cs2
        else if e = 'r' then parseStrBody fuel ('\r' :: acc) true cs2
        else if e = 'b' then parseStrBody fuel ('\x08' :: acc) true cs2
        else if e = 'f' then parseStrBody fuel ('\x0c' :: acc) true cs2
        else if e = 'u' then
          match cs2 with
          | h1 :: h2 :: h3 :: h4 :: cs3 =>
            match hexDigitVal h1, hexDigitVal h2, hexDigitVal h3, hexDigitVal h4 with
            | some v1, some v2, some v3, some v4 =>
              let n := ((v1 * 16 + v2) * 16 + v3) * 16 + v4
              parseStrBody fuel (Char.ofNat n :: acc) true cs3
            | _, _, _, _ => none
          | _ => none
        else none
    else
      parseStrBody fuel (c :: acc) esc cs

/-- Consume a maximal run of decimal digits. -/
def takeDigits : List Char → (List Char × List Char)
  | [] => ([], [])
  | c :: cs =>
    if isDigitChar c then
      let (ds, rest) := takeDigits cs
      (c :: ds, rest)
    else ([], c :: cs)

def digitsToNat (ds : List Char) : Nat :=
  ds.foldl (fun n c => n * 10 + (c.toNat - '0'.toNat)) 0

/-- Parse a JSON integer literal (fractions and exponents are not used by the
protocol and are rejected). -/
def parseNum (cs : List Char) : Option (Json × List Char) :=
  let (neg, cs1) :=
    match cs with
    | '-' :: rest => (true, rest)
    | _ => (false, cs)
  match takeDigits cs1 with
  | ([], _) => none
  | (ds, rest) =>
    match rest with
    | '.' :: _ => none
    | 'e' :: _ => none
    | 'E' :: _ => none
    | _ =>
      let n : Int := Int.ofNat (digitsToNat ds)
      some (.num (if neg then -n else n), rest)

mutual

/-- Recursive-descent JSON value parser.  Input is positioned at the first
character of the value (no leading whitespace); returns the value and the
remaining input. -/
def parseVal : Nat → List Char → Option (Json × List Char)
  | 0, _ => none
  | _ + 1, [] => none
  | fuel + 1, c :: cs =>
    if c = 'n' then
      match cs with
      | 'u' :: 'l' :: 'l' :: rest => some (.null, rest)
      | _ => none
    else if c = 't' then
      match cs with
      | 'r' :: 'u' :: 'e' :: rest => some (.bool true, rest)
      | _ => none
    else if c = 'f' then
      match cs with
      | 'a' :: 'l' :: 's' :: 'e' :: rest => some (.bool false, rest)
      | _ => none
    else if c = '"' then
      match parseStrBody (fuel + 1) [] false cs with
      | some (s, _, rest) => some (.str s, rest)
      | none => none
    else if c = '[' then
      match skipWs cs with
      | ']' :: rest => some (.arr [], rest)
      | cs1 => parseArrItems fuel cs1 []
    else if c = '\x7b' then
      match skipWs cs with
      | '\x7d' :: rest => some (.obj [], rest)
      | cs1 => parseObjItems fuel cs1 []
    else if c = '-' || isDigitChar c then
      parseNum (c :: cs)
    else
      none

/-- Parse the items of a non-empty JSON array, input positioned at an item. -/
def parseArrItems : Nat → List Char → List Json → Option (Json × List Char)
  | 0, _, _ => none
  | fuel + 1, cs, acc =>
    match parseVal fuel cs with
    | none => none
    | some (j, rest) =>
      match skipWs rest with
      | ',' :: rest2 => parseArrItems fuel (skipWs rest2) (acc ++ [j])
      | ']' :: rest2 => some (.arr (acc ++ [j]), rest2)
      | _ => none

/-- Parse the members of a non-empty JSON object, input positioned at a key. -/
def parseObjItems : Nat → List Char → List (String × Json) → Option (Json × List Char)
  | 0, _, _ => none
  | fuel + 1, cs, acc =>
    match cs with
    | '"' :: cs1 =>
      match parseStrBody fuel [] false cs1 with
      | none => none
      | some (k, _, rest) =>
        match skipWs rest with
        | ':' :: rest2 =>
          match parseVal fuel (skipWs rest2) with
          | none => none
          | some (j, rest3) =>
            match skipWs rest3 with
            | ',' :: rest4 => parseObjItems fuel (skipWs rest4) (acc ++ [(k, j)])
            | '\x7d' :: rest4 => some (.obj (acc ++ [(k, j)]), rest4)
            | _ => none
        | _ => none
    | _ => none

end

/-- Parse a complete JSON document (serde_json from_str: the whole input must
be one value, trailing whitespace allowed). -/
def parseJson (s : String) : Option Json :=
  match parseVal (4 * s.length + 16) (skipWs s.data) with
  | some (j, rest) => if skipWs rest = [] then some j else none
  | none => none

/-! ### JSON string printing (serde_json compact output) -/

def toHexChar (n : Nat) : Char :=
  if n < 10 then Char.ofNat ('0'.toNat + n) else Char.ofNat ('a'.toNat + (n - 10))

/-- serde_json escaping for one character inside a JSON string: quote and
backslash get a backslash escape, control characters below 0x20 use the
short forms for \b \t \n \f \r and \u00XX otherwise. -/
def escapeJsonChar (c : Char) : List Char :=
  if c = '"' then ['\\', '"']
  else if c = '\\' then ['\\', '\\']
  else if c = '\x08' then ['\\', 'b']
  else if c = '\t' then ['\\', 't']
  else if c = '\n' then ['\\', 'n']
  else if c = '\x0c' then ['\\', 'f']
  else if c = '\r' then ['\\', 'r']
  else if c.toNat < 32 then
    ['\\', 'u', '0', '0', toHexChar (c.toNat / 16), toHexChar (c.toNat % 16)]
  else [c]

/-- Serialize a Rust string as a JSON string literal, as serde_json does. -/
def encodeJsonString (s : String) : String :=
  String.mk ('"' :: (s.data.foldr (fun c acc => escapeJsonChar c ++ acc) ['"']))

/-! ### src/jsonrpc.rs — Request / Response structs and validation

`id` and `params`/`result`/`error` are serde_json `RawValue`s: raw, unparsed
JSON fragments.  They are modelled as the exact `String` fragments they hold.
-/

/-- jsonrpc::Error from src/jsonrpc.rs. -/
inductive JsonrpcError where
  | badJsonrpcVersion (v : String)
  | responseHasBothResultAndError
  | responseHasNeitherResultNorError
deriving Repr, DecidableEq

/-- jsonrpc::Request: jsonrpc version string, raw id fragment, method name,
raw params fragment. -/
structure Request where
  jsonrpc : String
  id : String
  method : String
  params : String
deriving Repr, DecidableEq

/-- Request::validate — fails iff the version field is not "2.0". -/
def Request.validate (r : Request) : Except JsonrpcError Unit :=
  if r.jsonrpc ≠ "2.0" then .error (.badJsonrpcVersion r.jsonrpc) else .ok ()

/-- jsonrpc::Response: version, raw id fragment, and optional raw
result / error fragments.  A missing field deserializes to none
(serde default); a present field, even a JSON null, to some fragment. -/
structure Response where
  jsonrpc : String
  id : String
  result : Option String
  error : Option String
deriving Repr, DecidableEq

/-- Response::validate — checks the version, then rejects a response with
both result and error, then one with neither, in source order. -/
def Response.validate (r : Response) : Except JsonrpcError Unit :=
  if r.jsonrpc ≠ "2.0" then .error (.badJsonrpcVersion r.jsonrpc)
  else if r.result.isSome ∧ r.error.isSome then .error .responseHasBothResultAndError
  else if r.result.isNone ∧ r.error.isNone then .error .responseHasNeitherResultNorError
  else .ok ()

/-- serde_json::to_string of a Response: compact object with the fields in
declaration order; `skip_serializing_if = "Option::is_none"` omits an absent
result / error entirely (no `null` is emitted); raw fragments are spliced
verbatim. -/
def Response.serializeString (r : Response) : String :=
  "\x7b\"jsonrpc\":" ++ encodeJsonString r.jsonrpc ++ ",\"id\":" ++ r.id ++
    (match r.result with
     | some v => ",\"result\":" ++ v
     | none => "") ++
    (match r.error with
     | some v => ",\"error\":" ++ v
     | none => "") ++
    "\x7d"

/-- serde_json::to_string of a Request: compact object, declaration order,
raw fragments spliced verbatim. -/
def Request.serializeString (r : Request) : String :=
  "\x7b\"jsonrpc\":" ++ encodeJsonString r.jsonrpc ++ ",\"id\":" ++ r.id ++
    ",\"method\":" ++ encodeJsonString r.method ++ ",\"params\":" ++ r.params ++ "\x7d"

/-! ### Wire-level deserialization of a Request

Models serde_json::from_str::<jsonrpc::Request> on one text frame: a JSON
object whose members may come in any order (unknown members are ignored,
missing required members are an error), where `jsonrpc` and `method` must be
escape-free JSON strings (they deserialize into borrowed `&str`) and `id`
and `params` are captured as the exact raw fragments of the input. -/

structure RawMember where
  key : String
  val : Json
  raw : String
deriving Repr, Inhabited

/-- Parse the members of a non-empty top-level object, recording for each
member its decoded key, its parsed value and the exact raw fragment the
value occupies in the input (what a RawValue borrows). -/
def parseMembers (fuel : Nat) (cs : List Char) (acc : List RawMember) :
    Option (List RawMember × List Char) :=
  match fuel, cs with
  | 0, _ => none
  | fuel + 1, '"' :: cs1 =>
    match parseStrBody fuel [] false cs1 with
    | none => none
    | some (k, _, rest) =>
      match skipWs rest with
      | ':' :: rest2 =>
        let vstart := skipWs rest2
        match parseVal fuel vstart with
        | none => none
        | some (j, rest3) =>
          let raw := String.mk (vstart.take (vstart.length - rest3.length))
          let acc2 := acc ++ [⟨k, j, raw⟩]
          match skipWs rest3 with
          | ',' :: rest4 => parseMembers fuel (skipWs rest4) acc2
          | '\x7d' :: rest4 => some (acc2, rest4)
          | _ => none
      | _ => none
  | _, _ => none

/-- Parse a whole input as one top-level JSON object with raw-fragment
capture; trailing whitespace allowed, trailing garbage rejected. -/
def parseTopObject (s : String) : Option (List RawMember) :=
  match skipWs s.data with
  | '\x7b' :: rest =>
    match skipWs rest with
    | '\x7d' :: rest2 => if skipWs rest2 = [] then some [] else none
    | cs1 =>
      match parseMembers (4 * s.length + 16) cs1 [] with
      | some (ms, rest2) => if skipWs rest2 = [] then some ms else none
      | none => none
  | _ => none

def findMember (k : String) : List RawMember → Option RawMember
  | [] => none
  | m :: ms => if m.key = k then some m else findMember k ms

/-- Deserializing a member into a borrowed `&str`: the value must be a JSON
string and must contain no escape sequence (serde cannot borrow otherwise). -/
def memberAsBorrowedStr (m : RawMember) : Option String :=
  match m.val with
  | .str s => if m.raw.data.contains '\\' then none else some s
  | _ => none

/-- serde_json::from_str::<jsonrpc::Request>. -/
def parseRequestString (s : String) : Option Request := do
  let ms ← parseTopObject s
  let mjsonrpc ← findMember "jsonrpc" ms
  let jsonrpc ← memberAsBorrowedStr mjsonrpc
  let mid ← findMember "id" ms
  let mmethod ← findMember "method" ms
  let method ← memberAsBorrowedStr mmethod
  let mparams ← findMember "params" ms
  pure ⟨jsonrpc, mid.raw, method, mparams.raw⟩

/-! ### Value-level (serde data model) serialization for the round-trip law

For the round-trip law the Request/Response structs are considered at serde's
data-model level: each RawValue fragment is abstracted as the JSON value it
denotes, and serialization/deserialization is to/from the JSON object tree.
These mirror exactly the derived Serialize/Deserialize instances of
src/jsonrpc.rs: field order and names, `skip_serializing_if` omission,
`default` for a missing member, and `deserialize_optional_value` wrapping any
present member (a JSON null included) in Some. -/

structure RequestV where
  jsonrpc : String
  id : Json
  method : String
  params : Json

structure ResponseV where
  jsonrpc : String
  id : Json
  result : Option Json
  error : Option Json

def RequestV.validate (r : RequestV) : Except JsonrpcError Unit :=
  if r.jsonrpc ≠ "2.0" then .error (.badJsonrpcVersion r.jsonrpc) else .ok ()

def ResponseV.validate (r : ResponseV) : Except JsonrpcError Unit :=
  if r.jsonrpc ≠ "2.0" then .error (.badJsonrpcVersion r.jsonrpc)
  else if r.result.isSome ∧ r.error.isSome then .error .responseHasBothResultAndError
  else if r.result.isNone ∧ r.error.isNone then .error .responseHasNeitherResultNorError
  else .ok ()

def RequestV.toJson (r : RequestV) : Json :=
  .obj [("jsonrpc", .str r.jsonrpc), ("id", r.id),
        ("method", .str r.method), ("params", r.params)]

def ResponseV.toJson (r : ResponseV) : Json :=
  .obj ([("jsonrpc", .str r.jsonrpc), ("id", r.id)] ++
    (match r.result with
     | some v => [("result", v)]
     | none => []) ++
    (match r.error with
     | some v => [("error", v)]
     | none => []))

def jsonLookup (k : String) : List (String × Json) → Option Json
  | [] => none
  | (k2, v) :: fs => if k2 = k then some v else jsonLookup k fs

def Json.asStr : Json → Option String
  | .str s => some s
  | _ => none

def RequestV.fromJson (j : Json) : Option RequestV :=
  match j with
  | .obj fs => do
    let jsonrpc ← (jsonLookup "jsonrpc" fs).bind Json.asStr
    let id ← jsonLookup "id" fs
    let method ← (jsonLookup "method" fs).bind Json.asStr
    let params ← jsonLookup "params" fs
    pure ⟨jsonrpc, id, method, params⟩
  | _ => none

def ResponseV.fromJson (j : Json) : Option ResponseV :=
  match j with
  | .obj fs => do
    let jsonrpc ← (jsonLookup "jsonrpc" fs).bind Json.asStr
    let id ← jsonLookup "id" fs
    pure ⟨jsonrpc, id, jsonLookup "result" fs, jsonLookup "error" fs⟩
  | _ => none

/-! ### base64 decoding (base64 crate, standard alphabet, as used by
Controller::handle_run).  Bytes are Nats below 256. -/

inductive B64Error where
  | invalidByte (offset : Nat) (byte : Nat)
  | invalidLength
  | invalidLastSymbol (offset : Nat) (byte : Nat)
deriving Repr, DecidableEq

def b64Index (c : Char) : Option Nat :=
  if 'A' ≤ c ∧ c ≤ 'Z' then some (c.toNat - 'A'.toNat)
  else if 'a' ≤ c ∧ c ≤ 'z' then some (c.toNat - 'a'.toNat + 26)
  else if '0' ≤ c ∧ c ≤ '9' then some (c.toNat - '0'.toNat + 52)
  else if c = '+' then some 62
  else if c = '/' then some 63
  else none

def b64Sextets (off : Nat) : List Char → Except B64Error (List Nat)
  | [] => .ok []
  | c :: cs =>
    match b64Index c with
    | none => .error (.invalidByte off c.toNat)
    | some v =>
      match b64Sextets (off + 1) cs with
      | .ok vs => .ok (v :: vs)
      | .error e => .error e

/-- Reassemble 6-bit groups into bytes: a quad of sextets gives three bytes;
a final pair or triple gives one or two bytes, with the unused low bits
required to be zero; a single leftover sextet is an invalid length. -/
def b64Combine (off : Nat) : List Nat → Except B64Error (List Nat)
  | [] => .ok []
  | [_] => .error .invalidLength
  | [a, b] =>
    if b % 16 = 0 then .ok [a * 4 + b / 16]
    else .error (.invalidLastSymbol (off + 1) b)
  | [a, b, c] =>
    if c % 4 = 0 then .ok [a * 4 + b / 16, (b % 16) * 16 + c / 4]
    else .error (.invalidLastSymbol (off + 2) c)
  | a :: b :: c :: d :: rest =>
    match b64Combine (off + 4) rest with
    | .ok bytes => .ok ((a * 4 + b / 16) :: ((b % 16) * 16 + c / 4) :: ((c % 4) * 64 + d) :: bytes)
    | .error e => .error e

/-- base64::decode with the standard alphabet: trailing padding is stripped,
any other character outside the alphabet is an invalid byte at its offset. -/
def base64Decode (s : String) : Except B64Error (List Nat) :=
  let cs := s.data
  let body := (cs.reverse.dropWhile (fun c => c = '=')).reverse
  match b64Sextets 0 body with
  | .error e => .error e
  | .ok sx => b64Combine 0 sx

/-- Display of base64::DecodeError (foreign crate; text modelled). -/
def B64Error.displayString : B64Error → String
  | .invalidByte off b => "Invalid byte " ++ toString b ++ ", offset " ++ toString off ++ "."
  | .invalidLength => "Encoded text cannot have a 6-bit remainder."
  | .invalidLastSymbol off b => "Invalid last symbol " ++ toString b ++ ", offset " ++ toString off ++ "."

/-! ### src/driver.rs — Status, and src/error.rs — Error -/

/-- driver::Status. -/
inductive Status where
  | notPlaying
  | playing
  | paused
deriving Repr, DecidableEq

/-- serde_json::to_raw_value of a Status: the serde derive serializes the
unit variant as its name string. -/
def Status.serializeRaw : Status → String
  | .notPlaying => "\"NotPlaying\""
  | .playing => "\"Playing\""
  | .paused => "\"Paused\""

/-- websocket::OwnedMessage (the frame kinds the control loop matches on). -/
inductive OwnedMessage where
  | text (s : String)
  | binary (data : List Nat)
  | close
  | ping (data : List Nat)
  | pong (data : List Nat)
deriving Repr, DecidableEq

/-- error::Error.  Errors of foreign crates (websocket, serde_json, wasm3,
url) are modelled by their message strings; wasm3 errors are reduced to a
string exactly as the `From<wasm3::error::Error>` impl does. -/
inductive Error where
  | urlParseError (msg : String)
  | unsupportedOutput (target featureName : String)
  | webSocketError (msg : String)
  | wasm3 (msg : String)
  | unexpectedMessage (m : OwnedMessage)
  | unknownRpcMethod (m : String)
  | requestSerialization (msg : String)
  | requestDeserialization (msg : String)
  | responseDeserialization (msg : String)
  | responseSerialization (msg : String)
  | badJsonrpcRequest (e : JsonrpcError)
  | badJsonrpcResponse (e : JsonrpcError)
  | badWasmEncoding (e : B64Error)
deriving Repr, DecidableEq

/-- Rust `{:?}` of a String (quoted, backslash-escaped); used by the
derive_more display format strings in src/error.rs. -/
def debugQuoteString (s : String) : String :=
  encodeJsonString s

/-- Display of jsonrpc::Error (derive_more: explicit format string for
BadJsonrpcVersion, variant name for the unit variants). -/
def JsonrpcError.displayString : JsonrpcError → String
  | .badJsonrpcVersion v => "jsonrpc version field is not \"2.0\": " ++ v
  | .responseHasBothResultAndError => "ResponseHasBothResultAndError"
  | .responseHasNeitherResultNorError => "ResponseHasNeitherResultNorError"

/-- Rust Debug of an OwnedMessage (modelled; only its shape matters). -/
def OwnedMessage.debugString : OwnedMessage → String
  | .text s => "Text(" ++ debugQuoteString s ++ ")"
  | .binary d => "Binary(" ++ toString d ++ ")"
  | .close => "Close(None)"
  | .ping d => "Ping(" ++ toString d ++ ")"
  | .pong d => "Pong(" ++ toString d ++ ")"

/-- Display of error::Error per the derive_more attributes in src/error.rs:
variants with an explicit format string use it, single-field variants
forward to the field's display. -/
def Error.displayString : Error → String
  | .urlParseError msg => msg
  | .unsupportedOutput target featureName =>
    "output target \"" ++ target ++ "\" is not available unless compiled with \"" ++
      featureName ++ "\" feature"
  | .webSocketError msg => msg
  | .wasm3 msg => msg
  | .unexpectedMessage m => "Unexpected message from controller: " ++ m.debugString
  | .unknownRpcMethod m => "Unknown RPC method from controller: " ++ debugQuoteString m
  | .requestSerialization msg => msg
  | .requestDeserialization msg => msg
  | .responseDeserialization msg => msg
  | .responseSerialization msg => msg
  | .badJsonrpcRequest e => e.displayString
  | .badJsonrpcResponse e => e.displayString
  | .badWasmEncoding e => e.displayString

/-! ### src/control.rs — typed requests, Controller, dispatcher -/

structure RunParams where
  wasm : String
deriving Repr, DecidableEq

structure ReverseAuthParams where
  challenge : String
deriving Repr, DecidableEq

structure ReverseAuthResult where
  name : String
deriving Repr, DecidableEq

/-- serde_json::to_raw_value of a ReverseAuthResult. -/
def ReverseAuthResult.serializeRaw (r : ReverseAuthResult) : String :=
  "\x7b\"name\":" ++ encodeJsonString r.name ++ "\x7d"

/-- control::Request — the typed request enum. -/
inductive CtrlRequest where
  | reverseAuth (params : ReverseAuthParams)
  | getStatus
  | run (params : RunParams)
  | play
  | pause
  | stop
deriving Repr, DecidableEq

/-- serde_json errors carry position-dependent messages; the dispatcher never
inspects them, so they are modelled by one opaque message. -/
def serdeErrMsg : String := "serde_json error"

/-- parse_params::<[Value; 0]> — the raw fragment must be the empty JSON
array. -/
def parseEmptyParams (raw : String) : Except Error Unit :=
  match parseJson raw with
  | some (.arr []) => .ok ()
  | _ => .error (.requestDeserialization serdeErrMsg)

/-- parse_params::<RunParams> — an object with a string member "wasm"
(unknown members ignored). -/
def parseRunParams (raw : String) : Except Error RunParams :=
  match parseJson raw with
  | some (.obj fs) =>
    match (jsonLookup "wasm" fs).bind Json.asStr with
    | some w => .ok ⟨w⟩
    | none => .error (.requestDeserialization serdeErrMsg)
  | _ => .error (.requestDeserialization serdeErrMsg)

/-- parse_params::<ReverseAuthParams> — an object with a string member
"challenge". -/
def parseReverseAuthParams (raw : String) : Except Error ReverseAuthParams :=
  match parseJson raw with
  | some (.obj fs) =>
    match (jsonLookup "challenge" fs).bind Json.asStr with
    | some ch => .ok ⟨ch⟩
    | none => .error (.requestDeserialization serdeErrMsg)
  | _ => .error (.requestDeserialization serdeErrMsg)

/-- control::Request::from_jsonrpc: validate, then match the method name in
source order; an unrecognized method is an UnknownRpcMethod error. -/
def CtrlRequest.fromJsonrpc (req : Request) : Except Error CtrlRequest :=
  match req.validate with
  | .error e => .error (.badJsonrpcRequest e)
  | .ok _ =>
    if req.method = "reverse_auth" then
      match parseReverseAuthParams req.params with
      | .ok p => .ok (.reverseAuth p)
      | .error e => .error e
    else if req.method = "get_status" then
      match parseEmptyParams req.params with
      | .ok _ => .ok .getStatus
      | .error e => .error e
    else if req.method = "run" then
      match parseRunParams req.params with
      | .ok p => .ok (.run p)
      | .error e => .error e
    else if req.method = "play" then
      match parseEmptyParams req.params with
      | .ok _ => .ok .play
      | .error e => .error e
    else if req.method = "pause" then
      match parseEmptyParams req.params with
      | .ok _ => .ok .pause
      | .error e => .error e
    else if req.method = "stop" then
      match parseEmptyParams req.params with
      | .ok _ => .ok .stop
      | .error e => .error e
    else
      .error (.unknownRpcMethod req.method)

/-- The Driver trait (src/driver.rs): the dispatcher is generic over any
driver implementation (the repo's tests use a mock).  State-passing replaces
&mut self. -/
structure DriverOps (σ : Type) where
  status : σ → Status
  start : σ → List Nat → σ × Except Error Status
  stop : σ → σ × Status
  play : σ → σ × Status
  pause : σ → σ × Status

/-- control::Controller. -/
structure Controller (σ : Type) where
  driverName : String
  driver : σ

def Controller.handleReverseAuth (c : Controller σ) (_p : ReverseAuthParams) :
    ReverseAuthResult :=
  ⟨c.driverName⟩

def Controller.handleGetStatus (ops : DriverOps σ) (c : Controller σ) : Status :=
  ops.status c.driver

/-- Controller::handle_run — base64-decode the wasm param, then start the
driver. -/
def Controller.handleRun (ops : DriverOps σ) (c : Controller σ) (p : RunParams) :
    Controller σ × Except Error Status :=
  match base64Decode p.wasm with
  | .error e => (c, .error (.badWasmEncoding e))
  | .ok bin =>
    let (d2, r) := ops.start c.driver bin
    ({ c with driver := d2 }, r)

def Controller.handlePlay (ops : DriverOps σ) (c : Controller σ) :
    Controller σ × Status :=
  let (d2, st) := ops.play c.driver
  ({ c with driver := d2 }, st)

def Controller.handlePause (ops : DriverOps σ) (c : Controller σ) :
    Controller σ × Status :=
  let (d2, st) := ops.pause c.driver
  ({ c with driver := d2 }, st)

def Controller.handleStop (ops : DriverOps σ) (c : Controller σ) :
    Controller σ × Status :=
  let (d2, st) := ops.stop c.driver
  ({ c with driver := d2 }, st)

/-- control::handle_request.  A from_jsonrpc failure propagates as an Err
(the `?` operator).  Only handle_run can contribute an error payload: its
error is rendered with to_raw_value(err.to_string()) and placed in the
response's `error` field; every other outcome fills `result`.  The response
echoes the request's raw id fragment (Cow::Borrowed). -/
def handleRequest (ops : DriverOps σ) (c : Controller σ) (req : Request) :
    Except Error (Response × Controller σ) :=
  match CtrlRequest.fromJsonrpc req with
  | .error e => .error e
  | .ok cr =>
    let out : String × Bool × Controller σ :=
      match cr with
      | .reverseAuth p => ((c.handleReverseAuth p).serializeRaw, false, c)
      | .getStatus => ((Controller.handleGetStatus ops c).serializeRaw, false, c)
      | .run p =>
        match Controller.handleRun ops c p with
        | (c2, .ok st) => (st.serializeRaw, false, c2)
        | (c2, .error e) => (encodeJsonString e.displayString, true, c2)
      | .play =>
        match Controller.handlePlay ops c with
        | (c2, st) => (st.serializeRaw, false, c2)
      | .pause =>
        match Controller.handlePause ops c with
        | (c2, st) => (st.serializeRaw, false, c2)
      | .stop =>
        match Controller.handleStop ops c with
        | (c2, st) => (st.serializeRaw, false, c2)
    match out with
    | (raw, isError, c1) =>
      .ok (⟨"2.0", req.id,
            if isError then none else some raw,
            if isError then some raw else none⟩, c1)

/-- What Connection::process_one sends back on success. -/
inductive SentMessage where
  | sentText (s : String)
  | sentPong (data : List Nat)
deriving Repr, DecidableEq

/-- Connection::process_one.  The received frame is the input; a successful
transport send is the returned SentMessage (socket-level failures are
orthogonal to the dispatch semantics modelled here).  A Text frame is parsed
as a JSON-RPC request (parse failure terminates), dispatched (a dispatch
Err terminates), and the validated response is serialized and sent; a Ping
is answered with a Pong carrying the same payload; any other frame kind is
an UnexpectedMessage error. -/
def processOne (ops : DriverOps σ) (c : Controller σ) (msg : OwnedMessage) :
    Except Error (SentMessage × Controller σ) :=
  match msg with
  | .text m =>
    match parseRequestString m with
    | none => .error (.requestDeserialization serdeErrMsg)
    | some req =>
      match handleRequest ops c req with
      | .error e => .error e
      | .ok (resp, c1) =>
        match resp.validate with
        | .error e => .error (.badJsonrpcResponse e)
        | .ok _ => .ok (.sentText resp.serializeString, c1)
  | .ping data => .ok (.sentPong data, c)
  | m => .error (.unexpectedMessage m)

/-! ### src/driver.rs — DriverImpl

The foreground state of a DriverImpl: its configured render frequency, the
externally visible status field, and whether a worker is owned
(thread_handle and ctrl_sender are set and cleared together, so one flag
models both Options).  The worker thread and the rendezvous channel are the
environment: each operation that interacts with them takes the outcome of
that interaction as an argument — whether a channel send succeeds, and what
joining the worker yields.  A panic in the (non-test) foreground code is
modelled as `none`. -/

/-- Result of joining the worker thread: Ok(Ok(())), Ok(Err(e)), or a
panicked worker. -/
inductive WorkerJoinOutcome where
  | exitOk
  | exitErr (e : Error)
  | panicked
deriving Repr, DecidableEq

/-- Environment of one DriverImpl::start call: whether the rendezvous send
of the initial Play action succeeds (the worker reached its receive loop),
and — when it does not — what joining the already-exited worker yields. -/
structure StartEnv where
  sendOk : Bool
  joinOutcome : WorkerJoinOutcome
deriving Repr, DecidableEq

structure DriverImplState where
  renderFreq : Nat
  hasWorker : Bool
  status : Status
deriving Repr, DecidableEq

/-- DriverImpl::new. -/
def DriverImpl.new (renderFreq : Nat) : DriverImplState :=
  ⟨renderFreq, false, .notPlaying⟩

/-- DriverImpl::status — pure read of the field. -/
def DriverImpl.statusOp (s : DriverImplState) : Status :=
  s.status

/-- DriverImpl::stop — with a worker: send Exit (failure only logged), join
(outcome only logged), set status NotPlaying; without one: no-op.  Returns
self.status. -/
def DriverImpl.stop (s : DriverImplState) : DriverImplState × Status :=
  if s.hasWorker then
    (⟨s.renderFreq, false, .notPlaying⟩, .notPlaying)
  else
    (s, s.status)

/-- The render period Duration::from_millis((1000 / self.render_freq) as u64)
computed inside DriverImpl::start: unguarded usize division, so a zero
frequency is a division-by-zero panic (`none`); otherwise floor division. -/
def renderPeriodMillis (renderFreq : Nat) : Option Nat :=
  if renderFreq = 0 then none else some (1000 / renderFreq)

/-- DriverImpl::start: first self.stop(); then compute the render period
(panicking on render_freq = 0, before the worker is spawned or any handle
stored); then spawn and rendezvous-send Play.  If the send succeeds the
handles are stored and status becomes Playing.  If it fails, the worker is
joined: a worker Err is returned as Err; a clean exit or a panic is logged
(non-test build) and start falls through to Ok(self.status) with no handles
stored. -/
def DriverImpl.start (s : DriverImplState) (env : StartEnv) :
    Option (DriverImplState × Except Error Status) :=
  let s1 := (DriverImpl.stop s).1
  match renderPeriodMillis s1.renderFreq with
  | none => none
  | some _periodMs =>
    if env.sendOk then
      some (⟨s1.renderFreq, true, .playing⟩, .ok .playing)
    else
      match env.joinOutcome with
      | .exitErr e => some (s1, .error e)
      | .exitOk => some (s1, .ok s1.status)
      | .panicked => some (s1, .ok s1.status)

/-- DriverImpl::play — nothing without a worker; with one, send Play: on
success status becomes Playing, on failure self.stop() runs.  Returns
self.status. -/
def DriverImpl.play (s : DriverImplState) (sendOk : Bool) :
    DriverImplState × Status :=
  if s.hasWorker then
    if sendOk then
      (⟨s.renderFreq, s.hasWorker, .playing⟩, .playing)
    else
      let s2 := (DriverImpl.stop s).1
      (s2, s2.status)
  else
    (s, s.status)

/-- DriverImpl::pause — symmetric to play with the Paused status. -/
def DriverImpl.pause (s : DriverImplState) (sendOk : Bool) :
    DriverImplState × Status :=
  if s.hasWorker then
    if sendOk then
      (⟨s.renderFreq, s.hasWorker, .paused⟩, .paused)
    else
      let s2 := (DriverImpl.stop s).1
      (s2, s2.status)
  else
    (s, s.status)

/-- One foreground operation on a DriverImpl, with the environment outcomes
it consumes. -/
inductive DriverOp where
  | queryStatus
  | doStart (env : StartEnv)
  | doStop
  | doPlay (sendOk : Bool)
  | doPause (sendOk : Bool)
deriving Repr, DecidableEq

/-- Run one operation: the successor state and what the operation returned
(`Except Error Status`; only start can return an Err).  `none` is a panic. -/
def stepDriver (s : DriverImplState) : DriverOp → Option (DriverImplState × Except Error Status)
  | .queryStatus => some (s, .ok (DriverImpl.statusOp s))
  | .doStart env => DriverImpl.start s env
  | .doStop =>
    match DriverImpl.stop s with
    | (s2, st) => some (s2, .ok st)
  | .doPlay sendOk =>
    match DriverImpl.play s sendOk with
    | (s2, st) => some (s2, .ok st)
  | .doPause sendOk =>
    match DriverImpl.pause s sendOk with
    | (s2, st) => some (s2, .ok st)

/-- The status an operation reports externally: the status it returns, and
NotPlaying for a start that returns Err (the driver is left stopped). -/
def reportedStatus (r : Except Error Status) : Status :=
  match r with
  | .ok st => st
  | .error _ => .notPlaying

/-- Run a sequence of operations from a given state, tracking the most
recently reported status (`start` before the first operation reports the
initial NotPlaying). -/
def runOpsFrom (s : DriverImplState) (last : Status) :
    List DriverOp → Option (DriverImplState × Status)
  | [] => some (s, last)
  | op :: ops =>
    match stepDriver s op with
    | none => none
    | some (s2, r) => runOpsFrom s2 (reportedStatus r) ops

/-- Run a sequence of operations on a freshly constructed DriverImpl. -/
def runOps (renderFreq : Nat) (ops : List DriverOp) : Option (DriverImplState × Status) :=
  runOpsFrom (DriverImpl.new renderFreq) .notPlaying ops

/-- The foreground invariant: without a worker the status field is
NotPlaying. -/
def DriverInv (s : DriverImplState) : Prop :=
  s.hasWorker = false → s.status = .notPlaying

/-! ### src/wasm_program.rs — WasmProgram

The wasm3 engine is abstracted: a guest module is a record of its declared
imports, its exported names, and the semantics of its exports as
state-passing functions over an opaque guest-state type γ (the instance's
linear memory and globals); a guest call may trap with a message.  Pixel
coordinates are f32 in the source; the claims never compute with them, so
the coordinate type is an opaque parameter α.  Guest i32/u32 arguments are
taken as Int/Nat with the `as i32` casts applied at call sites via
Int.ofNat (injective for every realizable layout size). -/

structure WasmModule (γ : Type) (α : Type) where
  imports : List (String × String)
  exports : List String
  initLayoutSetNumStrips : γ → Int → Except String γ
  initLayoutSetStripLen : γ → Int → Int → Except String γ
  initLayoutSetPixelLoc : γ → Int → Int → α → α → Except String γ
  initLayoutDone : γ → Except String γ
  tickFn : γ → Except String γ
  getPixelRed : γ → Int → Int → Except String (Nat × γ)
  getPixelGrn : γ → Int → Int → Except String (Nat × γ)
  getPixelBlu : γ → Int → Int → Except String (Nat × γ)

/-- config::LayoutConfig. -/
structure LayoutConfig (α : Type) where
  pixel_locations : List (List (α × α))

/-- Modelled from the spec: PixelVal, the sRGB 8-bit triple from the live
`program.rs` revision (the file under src/ is an older iteration without
it); src/wasm_program.rs consumes it through PixelVal::new and
PixelVal::default. -/
structure PixelVal where
  r : Nat
  g : Nat
  b : Nat
deriving Repr, DecidableEq

def PixelVal.new (r g b : Nat) : PixelVal :=
  ⟨r, g, b⟩

def PixelVal.defaultVal : PixelVal :=
  ⟨0, 0, 0⟩

/-- make_pixels_array — one default pixel per layout location. -/
def makePixelsArray (layout : LayoutConfig α) : List (List PixelVal) :=
  layout.pixel_locations.map (fun stripLocations =>
    List.replicate stripLocations.length PixelVal.defaultVal)

/-- Display string of wasm3::error::Error::FunctionNotFound (foreign crate;
text modelled). -/
def w3FunctionNotFoundMsg : String := "function lookup failed"

/-- Module::link_closure / link_function: resolving a host function against
the guest's declared imports; a guest that does not import the name yields
FunctionNotFound. -/
def linkImport (m : WasmModule γ α) (modName fnName : String) : Except String Unit :=
  if (modName, fnName) ∈ m.imports then .ok () else .error w3FunctionNotFoundMsg

/-- Module::find_function: resolving a required guest export by name. -/
def findExport (m : WasmModule γ α) (fnName : String) : Except String Unit :=
  if fnName ∈ m.exports then .ok () else .error w3FunctionNotFoundMsg

/-- The host imports WasmProgram::new links, in source order, with whether a
FunctionNotFound on that link is tolerated: env.abort is linked
unconditionally (its absence fails initialization), and
colorConvert.hsvToRgbEncoded tolerates absence. -/
def hostLinkCalls : List (String × String × Bool) :=
  [("env", "abort", false), ("colorConvert", "hsvToRgbEncoded", true)]

/-- Perform the link calls of WasmProgram::new against a module. -/
def linkHostImports (m : WasmModule γ α) :
    List (String × String × Bool) → Except String Unit
  | [] => .ok ()
  | (modName, fnName, optional) :: rest =>
    match linkImport m modName fnName with
    | .ok _ => linkHostImports m rest
    | .error e =>
      if optional ∧ e = w3FunctionNotFoundMsg then linkHostImports m rest
      else .error e

/-- The required guest exports WasmProgram::new resolves, in source order. -/
def requiredExports : List String :=
  ["initLayoutSetNumStrips", "initLayoutSetStripLen", "initLayoutSetPixelLoc",
   "initLayoutDone", "tick", "getPixelRed", "getPixelGrn", "getPixelBlu"]

def findAllExports (m : WasmModule γ α) : List String → Except String Unit
  | [] => .ok ()
  | name :: rest =>
    match findExport m name with
    | .ok _ => findAllExports m rest
    | .error e => .error e

/-- The initLayoutSetPixelLoc(i, j, x, y) calls for the pixels of strip i,
in pixel order. -/
def initPixelLocCalls (m : WasmModule γ α) (i : Nat) (g : γ) (j : Nat) :
    List (α × α) → Except String γ
  | [] => .ok g
  | (x, y) :: rest => do
    let g2 ← m.initLayoutSetPixelLoc g (Int.ofNat i) (Int.ofNat j) x y
    initPixelLocCalls m i g2 (j + 1) rest

/-- The per-strip part of the layout-initialization call sequence:
initLayoutSetStripLen(i, len) then initLayoutSetPixelLoc(i, j, x, y) for
each pixel j. -/
def initStripCalls (m : WasmModule γ α) (i : Nat) (g : γ)
    (stripLocations : List (α × α)) : Except String γ := do
  let g1 ← m.initLayoutSetStripLen g (Int.ofNat i) (Int.ofNat stripLocations.length)
  initPixelLocCalls m i g1 0 stripLocations

def initAllStrips (m : WasmModule γ α) (i : Nat) (g : γ) :
    List (List (α × α)) → Except String γ
  | [] => .ok g
  | strip :: rest => do
    let g1 ← initStripCalls m i g strip
    initAllStrips m (i + 1) g1 rest

structure WasmProgram (γ : Type) (α : Type) where
  pixels : List (List PixelVal)
  module : WasmModule γ α
  state : γ

/-- WasmProgram::update_pixel_vals on one strip: for each pixel j in order,
call getPixelRed, getPixelGrn, getPixelBlu and overwrite the pixel with the
three u32 results truncated `as u8` (% 256). -/
def updatePixelsRow (m : WasmModule γ α) (i : Nat) (g : γ) (j : Nat) :
    List PixelVal → Except String (List PixelVal × γ)
  | [] => .ok ([], g)
  | _old :: rest =>
    match m.getPixelRed g (Int.ofNat i) (Int.ofNat j) with
    | .error e => .error e
    | .ok (red, g1) =>
      match m.getPixelGrn g1 (Int.ofNat i) (Int.ofNat j) with
      | .error e => .error e
      | .ok (grn, g2) =>
        match m.getPixelBlu g2 (Int.ofNat i) (Int.ofNat j) with
        | .error e => .error e
        | .ok (blu, g3) =>
          match updatePixelsRow m i g3 (j + 1) rest with
          | .error e => .error e
          | .ok (vals, g4) =>
            .ok (PixelVal.new (red % 256) (grn % 256) (blu % 256) :: vals, g4)

/-- WasmProgram::update_pixel_vals: iterate the owned pixels array in strip
order, overwriting every value in place. -/
def updatePixelsAll (m : WasmModule γ α) (g : γ) (i : Nat) :
    List (List PixelVal) → Except String (List (List PixelVal) × γ)
  | [] => .ok ([], g)
  | strip :: rest =>
    match updatePixelsRow m i g 0 strip with
    | .error e => .error e
    | .ok (vals, g1) =>
      match updatePixelsAll m g1 (i + 1) rest with
      | .error e => .error e
      | .ok (strips, g2) => .ok (vals :: strips, g2)

def WasmProgram.updatePixelVals (p : WasmProgram γ α) :
    Except Error (WasmProgram γ α) :=
  match updatePixelsAll p.module p.state 0 p.pixels with
  | .error msg => .error (.wasm3 msg)
  | .ok (px, g) => .ok ⟨px, p.module, g⟩

/-- WasmProgram::new: link host imports (see hostLinkCalls), resolve the
required exports, run the layout-init call sequence —
initLayoutSetNumStrips(n), then per strip initLayoutSetStripLen and the
initLayoutSetPixelLoc calls, then initLayoutDone — build the default pixels
array, and run one update_pixel_vals so pixels() is valid before the first
tick.  wasm3 errors and guest traps are reduced to Error::Wasm3 strings. -/
def WasmProgram.new (layout : LayoutConfig α) (m : WasmModule γ α) (g0 : γ) :
    Except Error (WasmProgram γ α) :=
  match linkHostImports m hostLinkCalls with
  | .error msg => .error (.wasm3 msg)
  | .ok _ =>
    match findAllExports m requiredExports with
    | .error msg => .error (.wasm3 msg)
    | .ok _ =>
      match m.initLayoutSetNumStrips g0 (Int.ofNat layout.pixel_locations.length) with
      | .error msg => .error (.wasm3 msg)
      | .ok g1 =>
        match initAllStrips m 0 g1 layout.pixel_locations with
        | .error msg => .error (.wasm3 msg)
        | .ok g2 =>
          match m.initLayoutDone g2 with
          | .error msg => .error (.wasm3 msg)
          | .ok g3 =>
            WasmProgram.updatePixelVals ⟨makePixelsArray layout, m, g3⟩

/-- Program::tick for WasmProgram: call the guest tick export, then
update_pixel_vals. -/
def WasmProgram.tick (p : WasmProgram γ α) : Except Error (WasmProgram γ α) :=
  match p.module.tickFn p.state with
  | .error msg => .error (.wasm3 msg)
  | .ok g1 => WasmProgram.updatePixelVals ⟨p.pixels, p.module, g1⟩

/-- Program::pixels. -/
def WasmProgram.pixelsOf (p : WasmProgram γ α) : List (List PixelVal) :=
  p.pixels

/-- The shape of a frame: the list of strip lengths. -/
def frameShape (px : List (List PixelVal)) : List Nat :=
  px.map List.length

/-- The shape of a layout: the list of strip lengths. -/
def layoutShape (layout : LayoutConfig α) : List Nat :=
  layout.pixel_locations.map List.length

def exceptOk : Except ε β → Bool
  | .ok _ => true
  | .error _ => false

/-! ### Concrete drivers, controllers and guests used by witnesses -/

/-- A driver whose operations all succeed reporting NotPlaying. -/
def unitOps : DriverOps Unit :=
  ⟨fun _ => .notPlaying, fun s _ => (s, .ok .notPlaying),
   fun s => (s, .notPlaying), fun s => (s, .notPlaying), fun s => (s, .notPlaying)⟩

/-- A driver whose start fails (like the MockDriver in the repo's
test_connect_process_run_with_bad_wasm). -/
def errOps : DriverOps Unit :=
  ⟨fun _ => .notPlaying, fun s _ => (s, .error (.wasm3 "boom")),
   fun s => (s, .notPlaying), fun s => (s, .notPlaying), fun s => (s, .notPlaying)⟩

def testController : Controller Unit := ⟨"test", ()⟩

/-- A minimal conforming guest: imports env.abort, exports every required
export; the reads return the constant u32s 300, 2, 3 (300 exercises the
u8 truncation). -/
def trivGuest : WasmModule Unit Unit where
  imports := [("env", "abort")]
  exports := requiredExports
  initLayoutSetNumStrips := fun g _ => .ok g
  initLayoutSetStripLen := fun g _ _ => .ok g
  initLayoutSetPixelLoc := fun g _ _ _ _ => .ok g
  initLayoutDone := fun g => .ok g
  tickFn := fun g => .ok g
  getPixelRed := fun g _ _ => .ok (300, g)
  getPixelGrn := fun g _ _ => .ok (2, g)
  getPixelBlu := fun g _ _ => .ok (3, g)

/-- A guest conforming to the ABI of the spec's §4.2 table: it declares the
env.seed import and exports a single packed-color accessor getPixelVal
instead of the three per-channel accessors. -/
def specAbiGuest : WasmModule Unit Unit where
  imports := [("env", "abort"), ("env", "seed"), ("colorConvert", "hsvToRgbEncoded")]
  exports := ["initLayoutSetNumStrips", "initLayoutSetStripLen", "initLayoutSetPixelLoc",
              "initLayoutDone", "tick", "getPixelVal"]
  initLayoutSetNumStrips := fun g _ => .ok g
  initLayoutSetStripLen := fun g _ _ => .ok g
  initLayoutSetPixelLoc := fun g _ _ _ _ => .ok g
  initLayoutDone := fun g => .ok g
  tickFn := fun g => .ok g
  getPixelRed := fun g _ _ => .ok (300, g)
  getPixelGrn := fun g _ _ => .ok (2, g)
  getPixelBlu := fun g _ _ => .ok (3, g)

/-- trivGuest minus the tick export. -/
def noTickGuest : WasmModule Unit Unit :=
  { trivGuest with
    exports := ["initLayoutSetNumStrips", "initLayoutSetStripLen", "initLayoutSetPixelLoc",
                "initLayoutDone", "getPixelRed", "getPixelGrn", "getPixelBlu"] }

/-- A two-strip layout with strip lengths 2 and 1. -/
def layout21 : LayoutConfig Unit :=
  ⟨[[((), ()), ((), ())], [((), ())]]⟩

/-- The pixel value trivGuest produces: 300 % 256 = 44, 2, 3. -/
def pixel443 : PixelVal := ⟨44, 2, 3⟩

/-- The program WasmProgram::new yields for layout21 and trivGuest. -/
def trivProgram : WasmProgram Unit Unit :=
  ⟨[[pixel443, pixel443], [pixel443]], trivGuest, ()⟩

/-! ### Theorems -/

theorem stop_fst_renderFreq (s : DriverImplState) :
    (DriverImpl.stop s).1.renderFreq = s.renderFreq := by
  unfold DriverImpl.stop
  split <;> rfl

theorem stop_fst_status (s : DriverImplState) (hinv : DriverInv s) :
    (DriverImpl.stop s).1.status = .notPlaying := by
  unfold DriverImpl.stop
  split
  · rfl
  · next h =>
    exact hinv (by simpa using h)

theorem stop_fst_inv (s : DriverImplState) (hinv : DriverInv s) :
    DriverInv (DriverImpl.stop s).1 := by
  unfold DriverImpl.stop
  split
  · intro _
    rfl
  · exact hinv

theorem stop_snd_eq_fst_status (s : DriverImplState) :
    (DriverImpl.stop s).2 = (DriverImpl.stop s).1.status := by
  unfold DriverImpl.stop
  split <;> rfl

/-- Each driver operation leaves its returned (reported) status equal to the
new value of the status field and preserves the worker/status invariant. -/
theorem stepDriver_props (s s2 : DriverImplState) (op : DriverOp)
    (r : Except Error Status) (h : stepDriver s op = some (s2, r))
    (hinv : DriverInv s) : s2.status = reportedStatus r ∧ DriverInv s2 := by
  cases op with
  | queryStatus =>
    simp only [stepDriver, Option.some.injEq, Prod.mk.injEq] at h
    obtain ⟨h1, h2⟩ := h
    subst h1; subst h2
    exact ⟨rfl, hinv⟩
  | doStart env =>
    simp only [stepDriver, DriverImpl.start, renderPeriodMillis] at h
    by_cases hf : (DriverImpl.stop s).1.renderFreq = 0
    · simp [hf] at h
    · cases hsend : env.sendOk with
      | true =>
        simp [hf, hsend] at h
        obtain ⟨h1, h2⟩ := h
        subst h1; subst h2
        refine ⟨rfl, ?_⟩
        intro hw
        simp at hw
      | false =>
        cases hjoin : env.joinOutcome with
        | exitErr e =>
          simp [hf, hsend, hjoin] at h
          obtain ⟨h1, h2⟩ := h
          subst h1; subst h2
          exact ⟨stop_fst_status s hinv, stop_fst_inv s hinv⟩
        | exitOk =>
          simp [hf, hsend, hjoin] at h
          obtain ⟨h1, h2⟩ := h
          subst h1; subst h2
          exact ⟨rfl, stop_fst_inv s hinv⟩
        | panicked =>
          simp [hf, hsend, hjoin] at h
          obtain ⟨h1, h2⟩ := h
          subst h1; subst h2
          exact ⟨rfl, stop_fst_inv s hinv⟩
  | doStop =>
    simp only [stepDriver, Option.some.injEq, Prod.mk.injEq] at h
    obtain ⟨h1, h2⟩ := h
    subst h1; subst h2
    exact ⟨(stop_snd_eq_fst_status s).symm, stop_fst_inv s hinv⟩
  | doPlay b =>
    simp only [stepDriver, DriverImpl.play] at h
    by_cases hw : s.hasWorker
    · simp only [hw, if_true] at h
      by_cases hb : b
      · simp only [hb, if_true, Option.some.injEq, Prod.mk.injEq] at h
        obtain ⟨h1, h2⟩ := h
        subst h1; subst h2
        refine ⟨rfl, ?_⟩
        intro hcontra
        simp at hcontra
      · simp only [hb, if_false, Option.some.injEq, Prod.mk.injEq] at h
        obtain ⟨h1, h2⟩ := h
        subst h1; subst h2
        exact ⟨rfl, stop_fst_inv s hinv⟩
    · simp only [hw, if_false, Option.some.injEq, Prod.mk.injEq] at h
      obtain ⟨h1, h2⟩ := h
      subst h1; subst h2
      exact ⟨rfl, hinv⟩
  | doPause b =>
    simp only [stepDriver, DriverImpl.pause] at h
    by_cases hw : s.hasWorker
    · simp only [hw, if_true] at h
      by_cases hb : b
      · simp only [hb, if_true, Option.some.injEq, Prod.mk.injEq] at h
        obtain ⟨h1, h2⟩ := h
        subst h1; subst h2
        refine ⟨rfl, ?_⟩
        intro hcontra
        simp at hcontra
      · simp only [hb, if_false, Option.some.injEq, Prod.mk.injEq] at h
        obtain ⟨h1, h2⟩ := h
        subst h1; subst h2
        exact ⟨rfl, stop_fst_inv s hinv⟩
    · simp only [hw, if_false, Option.some.injEq, Prod.mk.injEq] at h
      obtain ⟨h1, h2⟩ := h
      subst h1; subst h2
      exact ⟨rfl, hinv⟩

/-- Along any operation sequence the status field tracks the most recently
reported status, and the invariant is maintained. -/
theorem runOpsFrom_status (ops : List DriverOp) :
    ∀ s last s2 last2, DriverInv s → s.status = last →
      runOpsFrom s last ops = some (s2, last2) →
      s2.status = last2 ∧ DriverInv s2 := by
  induction ops with
  | nil =>
    intro s last s2 last2 hinv hst h
    simp only [runOpsFrom, Option.some.injEq, Prod.mk.injEq] at h
    obtain ⟨h1, h2⟩ := h
    subst h1; subst h2
    exact ⟨hst, hinv⟩
  | cons op ops ih =>
    intro s last s2 last2 hinv hst h
    simp only [runOpsFrom] at h
    cases hstep : stepDriver s op with
    | none => rw [hstep] at h; cases h
    | some pair =>
      obtain ⟨sm, r⟩ := pair
      rw [hstep] at h
      obtain ⟨h1, h2⟩ := stepDriver_props s sm op r hstep hinv
      exact ih sm (reportedStatus r) s2 last2 h2 h1 h

/-- Claim C5 (amended): along any operation sequence on a fresh DriverImpl,
status() equals the most recently reported status, where a start that
returns Err reports NotPlaying (the driver is left stopped); a start whose
rendezvous send succeeds yields Playing; stop always yields NotPlaying; and
play/pause without a worker are no-ops returning the unchanged status. -/
theorem c5_status_machine :
    (∀ renderFreq ops s2 last2,
        runOps renderFreq ops = some (s2, last2) → s2.status = last2)
    ∧ (∀ s env, s.renderFreq ≠ 0 → env.sendOk = true →
        DriverImpl.start s env = some (⟨s.renderFreq, true, .playing⟩, .ok .playing))
    ∧ (∀ s, DriverInv s → (DriverImpl.stop s).2 = .notPlaying)
    ∧ (∀ s b, s.hasWorker = false →
        DriverImpl.play s b = (s, s.status) ∧ DriverImpl.pause s b = (s, s.status)) := by
  refine ⟨?_, ?_, ?_, ?_⟩
  · intro f ops s2 last2 h
    exact (runOpsFrom_status ops (DriverImpl.new f) .notPlaying s2 last2
      (fun _ => rfl) rfl h).1
  · intro s env hf hsend
    simp [DriverImpl.start, renderPeriodMillis, stop_fst_renderFreq, hf, hsend]
  · intro s hinv
    rw [stop_snd_eq_fst_status]
    exact stop_fst_status s hinv
  · intro s b hw
    constructor <;> simp [DriverImpl.play, DriverImpl.pause, hw]

/-- Claim C5, counterexample to the claim as stated: after a successful
start (which returned Playing) a second start whose rendezvous send fails
with a worker error returns Err — no status — and leaves the status field
NotPlaying, so status() differs from the status most recently returned by
an operation (Playing). -/
theorem c5_counterexample :
    stepDriver (DriverImpl.new 1000) (.doStart ⟨true, .exitOk⟩) =
      some (⟨1000, true, .playing⟩, .ok .playing)
    ∧ stepDriver ⟨1000, true, .playing⟩ (.doStart ⟨false, .exitErr (.wasm3 "boom")⟩) =
      some (⟨1000, false, .notPlaying⟩, .error (.wasm3 "boom"))
    ∧ (⟨1000, false, .notPlaying⟩ : DriverImplState).status ≠ .playing :=
  ⟨by rfl, by rfl, by decide⟩

/-- Claim C5, witness: the amended tracking theorem applied to the same
two-start sequence. -/
theorem c5_witness :
    runOps 1000 [DriverOp.doStart ⟨true, .exitOk⟩,
                 DriverOp.doStart ⟨false, .exitErr (.wasm3 "boom")⟩] =
      some (⟨1000, false, .notPlaying⟩, .notPlaying)
    ∧ (⟨1000, false, .notPlaying⟩ : DriverImplState).status = .notPlaying :=
  ⟨by decide,
   c5_status_machine.1 1000
     [DriverOp.doStart ⟨true, .exitOk⟩,
      DriverOp.doStart ⟨false, .exitErr (.wasm3 "boom")⟩]
     ⟨1000, false, .notPlaying⟩ .notPlaying (by decide)⟩

/-- Claim C6 (amended): when the rendezvous send fails, start joins the
worker; a worker error is returned as Err; a worker that exited cleanly or
panicked is only logged, start returning Ok with the (NotPlaying) status;
start returns Ok(Playing) only when the send succeeds. -/
theorem c6_start_send_failure :
    (∀ s env e, s.renderFreq ≠ 0 → env.sendOk = false → env.joinOutcome = .exitErr e →
        DriverImpl.start s env = some ((DriverImpl.stop s).1, .error e))
    ∧ (∀ s env s2, DriverInv s → DriverImpl.start s env = some (s2, .ok .playing) →
        env.sendOk = true)
    ∧ (∀ s env, DriverInv s → s.renderFreq ≠ 0 → env.sendOk = false →
        (env.joinOutcome = .exitOk ∨ env.joinOutcome = .panicked) →
        DriverImpl.start s env = some ((DriverImpl.stop s).1, .ok .notPlaying)) := by
  refine ⟨?_, ?_, ?_⟩
  · intro s env e hf hsend hjoin
    simp [DriverImpl.start, renderPeriodMillis, stop_fst_renderFreq, hf, hsend, hjoin]
  · intro s env s2 hinv h
    cases hsend : env.sendOk with
    | true => rfl
    | false =>
      exfalso
      simp only [DriverImpl.start, renderPeriodMillis] at h
      by_cases hf : (DriverImpl.stop s).1.renderFreq = 0
      · simp [hf] at h
      · cases hjoin : env.joinOutcome with
        | exitErr e => simp [hf, hsend, hjoin] at h
        | exitOk =>
          simp [hf, hsend, hjoin] at h
          have := stop_fst_status s hinv
          rw [h.2] at this
          cases this
        | panicked =>
          simp [hf, hsend, hjoin] at h
          have := stop_fst_status s hinv
          rw [h.2] at this
          cases this
  · intro s env hinv hf hsend hjoin
    have hst := stop_fst_status s hinv
    cases hjoin with
    | inl hj =>
      simp [DriverImpl.start, renderPeriodMillis, stop_fst_renderFreq, hf, hsend, hj, hst]
    | inr hj =>
      simp [DriverImpl.start, renderPeriodMillis, stop_fst_renderFreq, hf, hsend, hj, hst]

/-- Claim C6, counterexample to the claim as stated: the send fails and the
worker panicked, yet start returns Ok(NotPlaying) — the panic is logged, no
"thread panicked" Err is returned. -/
theorem c6_counterexample :
    DriverImpl.start ⟨1000, false, .notPlaying⟩ ⟨false, .panicked⟩ =
      some (⟨1000, false, .notPlaying⟩, .ok .notPlaying) := by
  rfl

/-- Claim C6, witness: the amended theorem applied to a send failure whose
joined worker reports an error. -/
theorem c6_witness :
    (⟨1000, true, .playing⟩ : DriverImplState).renderFreq ≠ 0
    ∧ DriverImpl.start ⟨1000, true, .playing⟩ ⟨false, .exitErr (.wasm3 "boom")⟩ =
        some ((DriverImpl.stop ⟨1000, true, .playing⟩).1, .error (.wasm3 "boom")) :=
  ⟨by decide,
   c6_start_send_failure.1 ⟨1000, true, .playing⟩ ⟨false, .exitErr (.wasm3 "boom")⟩
     (.wasm3 "boom") (by decide) (by decide) (by decide)⟩

/-- Claim C10: DriverImpl::start computes the render period by unguarded
integer division 1000 / render_freq ms — floor division for any
render_freq ≥ 1, hence a zero period for any frequency above 1000 Hz — and
with render_freq = 0 the division panics inside start, before the worker
is spawned. -/
theorem c10_render_period :
    (∀ f : Nat, 1 ≤ f → renderPeriodMillis f = some (1000 / f))
    ∧ (∀ f : Nat, 1000 < f → renderPeriodMillis f = some 0)
    ∧ (∀ s env, s.renderFreq = 0 → DriverImpl.start s env = none) := by
  refine ⟨?_, ?_, ?_⟩
  · intro f hf
    unfold renderPeriodMillis
    rw [if_neg (by omega)]
  · intro f hf
    unfold renderPeriodMillis
    rw [if_neg (by omega), Nat.div_eq_of_lt hf]
  · intro s env h0
    simp [DriverImpl.start, renderPeriodMillis, stop_fst_renderFreq, h0]

/-- Claim C10, witness: 1500 Hz truncates to a zero period, and a zero
frequency panics inside start. -/
theorem c10_witness :
    ((1000 : Nat) < 1500 ∧ renderPeriodMillis 1500 = some 0)
    ∧ ((⟨0, false, .notPlaying⟩ : DriverImplState).renderFreq = 0
       ∧ DriverImpl.start ⟨0, false, .notPlaying⟩ ⟨true, .exitOk⟩ = none) :=
  ⟨⟨by decide, c10_render_period.2.1 1500 (by decide)⟩,
   ⟨rfl, c10_render_period.2.2 ⟨0, false, .notPlaying⟩ ⟨true, .exitOk⟩ rfl⟩⟩

/-- Every response handle_request produces has version "2.0", echoes the
request's raw id fragment, and carries exactly one of result / error. -/
theorem handleRequest_fields {σ : Type} {ops : DriverOps σ} {c : Controller σ}
    {req : Request} {resp : Response} {c1 : Controller σ}
    (h : handleRequest ops c req = .ok (resp, c1)) :
    resp.jsonrpc = "2.0" ∧ resp.id = req.id ∧
      ((∃ v, resp.result = some v ∧ resp.error = none) ∨
       (∃ v, resp.error = some v ∧ resp.result = none)) := by
  unfold handleRequest at h
  cases hfc : CtrlRequest.fromJsonrpc req with
  | error e => rw [hfc] at h; cases h
  | ok cr =>
    rw [hfc] at h
    cases cr with
    | reverseAuth p =>
      simp only [Except.ok.injEq, Prod.mk.injEq] at h
      obtain ⟨h1, h2⟩ := h
      subst h1
      exact ⟨rfl, rfl, .inl ⟨_, rfl, rfl⟩⟩
    | getStatus =>
      simp only [Except.ok.injEq, Prod.mk.injEq] at h
      obtain ⟨h1, h2⟩ := h
      subst h1
      exact ⟨rfl, rfl, .inl ⟨_, rfl, rfl⟩⟩
    | run p =>
      dsimp only [] at h
      cases hrun : Controller.handleRun ops c p with
      | mk c2 r =>
        rw [hrun] at h
        cases r with
        | ok st =>
          dsimp only [] at h
          simp only [Except.ok.injEq, Prod.mk.injEq] at h
          obtain ⟨h1, h2⟩ := h
          subst h1
          exact ⟨rfl, rfl, .inl ⟨_, rfl, rfl⟩⟩
        | error e =>
          dsimp only [] at h
          simp only [Except.ok.injEq, Prod.mk.injEq] at h
          obtain ⟨h1, h2⟩ := h
          subst h1
          exact ⟨rfl, rfl, .inr ⟨_, rfl, rfl⟩⟩
    | play =>
      simp only [Except.ok.injEq, Prod.mk.injEq] at h
      obtain ⟨h1, h2⟩ := h
      subst h1
      exact ⟨rfl, rfl, .inl ⟨_, rfl, rfl⟩⟩
    | pause =>
      simp only [Except.ok.injEq, Prod.mk.injEq] at h
      obtain ⟨h1, h2⟩ := h
      subst h1
      exact ⟨rfl, rfl, .inl ⟨_, rfl, rfl⟩⟩
    | stop =>
      simp only [Except.ok.injEq, Prod.mk.injEq] at h
      obtain ⟨h1, h2⟩ := h
      subst h1
      exact ⟨rfl, rfl, .inl ⟨_, rfl, rfl⟩⟩

/-- Every response handle_request produces passes Response::validate. -/
theorem handleRequest_validate {σ : Type} {ops : DriverOps σ} {c : Controller σ}
    {req : Request} {resp : Response} {c1 : Controller σ}
    (h : handleRequest ops c req = .ok (resp, c1)) :
    resp.validate = .ok () := by
  obtain ⟨hj, _, hcase⟩ := handleRequest_fields h
  unfold Response.validate
  rw [hj]
  rcases hcase with ⟨v, hr, he⟩ | ⟨v, he, hr⟩ <;> simp [hr, he]

/-- Claim C1 (amended): a dispatch error from Request::from_jsonrpc —
unknown method, params of the wrong shape, bad version — propagates out of
handle_request unchanged, so process_one returns it and the session
terminates; only when from_jsonrpc succeeds does process_one answer, and
then it always sends the serialized response (run handler failures
included, as JSON-RPC error responses) and the session continues. -/
theorem c1_dispatch_error_terminates :
    (∀ (σ : Type) (ops : DriverOps σ) (c : Controller σ) msg req e,
        parseRequestString msg = some req →
        CtrlRequest.fromJsonrpc req = .error e →
        processOne ops c (.text msg) = .error e)
    ∧ (∀ (σ : Type) (ops : DriverOps σ) (c : Controller σ) msg req resp c1,
        parseRequestString msg = some req →
        handleRequest ops c req = .ok (resp, c1) →
        processOne ops c (.text msg) = .ok (.sentText resp.serializeString, c1)) := by
  constructor
  · intro σ ops c msg req e hp he
    simp [processOne, hp, handleRequest, he]
  · intro σ ops c msg req resp c1 hp hreq
    have hval := handleRequest_validate hreq
    simp [processOne, hp, hreq, hval]

/-- Claim C1, counterexample to the claim as stated: a valid JSON-RPC
request whose method "frobnicate" is unknown makes process_one return the
UnknownRpcMethod error — terminating the session — instead of answering
with a JSON-RPC error response. -/
theorem c1_counterexample :
    processOne unitOps testController
      (.text "\x7b\"jsonrpc\":\"2.0\",\"id\":0,\"method\":\"frobnicate\",\"params\":[]\x7d") =
      .error (.unknownRpcMethod "frobnicate") := by
  rfl

/-- Claim C1, witness: the amended theorem applied to the unknown-method
request. -/
theorem c1_witness :
    parseRequestString
        "\x7b\"jsonrpc\":\"2.0\",\"id\":0,\"method\":\"frobnicate\",\"params\":[]\x7d" =
      some ⟨"2.0", "0", "frobnicate", "[]"⟩
    ∧ CtrlRequest.fromJsonrpc ⟨"2.0", "0", "frobnicate", "[]"⟩ =
        .error (.unknownRpcMethod "frobnicate")
    ∧ processOne unitOps testController
        (.text "\x7b\"jsonrpc\":\"2.0\",\"id\":0,\"method\":\"frobnicate\",\"params\":[]\x7d") =
        .error (.unknownRpcMethod "frobnicate") :=
  ⟨by rfl, by rfl,
   c1_dispatch_error_terminates.1 Unit unitOps testController
     "\x7b\"jsonrpc\":\"2.0\",\"id\":0,\"method\":\"frobnicate\",\"params\":[]\x7d"
     ⟨"2.0", "0", "frobnicate", "[]"⟩ (.unknownRpcMethod "frobnicate") (by rfl) (by rfl)⟩

/-- Claim C2: a run whose handler fails (base64 decode failure or a driver
start error) yields a response whose error field is the JSON encoding of
the error's display string and no result; a successful run and every other
handler yield a result response and no error. -/
theorem c2_run_error_response :
    ∀ (σ : Type) (ops : DriverOps σ) (c : Controller σ) req resp c1,
      handleRequest ops c req = .ok (resp, c1) →
      (∀ p c2 e, CtrlRequest.fromJsonrpc req = .ok (.run p) →
          Controller.handleRun ops c p = (c2, .error e) →
          resp.error = some (encodeJsonString e.displayString) ∧ resp.result = none)
      ∧ (∀ p c2 st, CtrlRequest.fromJsonrpc req = .ok (.run p) →
          Controller.handleRun ops c p = (c2, .ok st) →
          resp.result = some st.serializeRaw ∧ resp.error = none)
      ∧ (∀ cr, CtrlRequest.fromJsonrpc req = .ok cr → (∀ p, cr ≠ .run p) →
          (∃ v, resp.result = some v) ∧ resp.error = none) := by
  intro σ ops c req resp c1 h
  refine ⟨?_, ?_, ?_⟩
  · intro p c2 e hfc hrun
    unfold handleRequest at h
    rw [hfc] at h
    dsimp only [] at h
    rw [hrun] at h
    dsimp only [] at h
    simp only [Except.ok.injEq, Prod.mk.injEq] at h
    obtain ⟨h1, h2⟩ := h
    subst h1
    exact ⟨rfl, rfl⟩
  · intro p c2 st hfc hrun
    unfold handleRequest at h
    rw [hfc] at h
    dsimp only [] at h
    rw [hrun] at h
    dsimp only [] at h
    simp only [Except.ok.injEq, Prod.mk.injEq] at h
    obtain ⟨h1, h2⟩ := h
    subst h1
    exact ⟨rfl, rfl⟩
  · intro cr hfc hne
    unfold handleRequest at h
    rw [hfc] at h
    cases cr with
    | run p => exact absurd rfl (hne p)
    | reverseAuth p =>
      simp only [Except.ok.injEq, Prod.mk.injEq] at h
      obtain ⟨h1, h2⟩ := h
      subst h1
      exact ⟨⟨_, rfl⟩, rfl⟩
    | getStatus =>
      simp only [Except.ok.injEq, Prod.mk.injEq] at h
      obtain ⟨h1, h2⟩ := h
      subst h1
      exact ⟨⟨_, rfl⟩, rfl⟩
    | play =>
      simp only [Except.ok.injEq, Prod.mk.injEq] at h
      obtain ⟨h1, h2⟩ := h
      subst h1
      exact ⟨⟨_, rfl⟩, rfl⟩
    | pause =>
      simp only [Except.ok.injEq, Prod.mk.injEq] at h
      obtain ⟨h1, h2⟩ := h
      subst h1
      exact ⟨⟨_, rfl⟩, rfl⟩
    | stop =>
      simp only [Except.ok.injEq, Prod.mk.injEq] at h
      obtain ⟨h1, h2⟩ := h
      subst h1
      exact ⟨⟨_, rfl⟩, rfl⟩

/-- Claim C2, witness: a run request with valid base64 "" whose driver
start fails with "boom" (mirroring test_connect_process_run_with_bad_wasm)
produces an error response carrying the display string. -/
theorem c2_witness :
    handleRequest errOps testController ⟨"2.0", "1", "run", "\x7b\"wasm\":\"\"\x7d"⟩ =
      .ok (⟨"2.0", "1", none, some "\"boom\""⟩, testController)
    ∧ (⟨"2.0", "1", none, some "\"boom\""⟩ : Response).error =
        some (encodeJsonString (Error.wasm3 "boom").displayString)
    ∧ (⟨"2.0", "1", none, some "\"boom\""⟩ : Response).result = none :=
  ⟨by rfl,
   ((c2_run_error_response Unit errOps testController
        ⟨"2.0", "1", "run", "\x7b\"wasm\":\"\"\x7d"⟩
        ⟨"2.0", "1", none, some "\"boom\""⟩ testController (by rfl)).1
      ⟨""⟩ testController (.wasm3 "boom") (by rfl) (by rfl)).1,
   ((c2_run_error_response Unit errOps testController
        ⟨"2.0", "1", "run", "\x7b\"wasm\":\"\"\x7d"⟩
        ⟨"2.0", "1", none, some "\"boom\""⟩ testController (by rfl)).1
      ⟨""⟩ testController (.wasm3 "boom") (by rfl) (by rfl)).2⟩

/-- The serialized form of any version-"2.0" response starts with the fixed
prefix followed immediately by the raw id fragment, byte for byte. -/
theorem serializeString_id_prefix (r : Response) (hj : r.jsonrpc = "2.0") :
    ∃ tail, r.serializeString = "\x7b\"jsonrpc\":\"2.0\",\"id\":" ++ r.id ++ tail := by
  refine ⟨((match r.result with | some v => ",\"result\":" ++ v | none => "") ++
           (match r.error with | some v => ",\"error\":" ++ v | none => "")) ++ "\x7d", ?_⟩
  unfold Response.serializeString
  rw [hj]
  have hL : "\x7b\"jsonrpc\":" ++ encodeJsonString "2.0" ++ ",\"id\":" =
      "\x7b\"jsonrpc\":\"2.0\",\"id\":" := by rfl
  rw [hL]
  simp [String.append_assoc]

/-- Claim C3: whenever process_one answers a request, the serialized
response's id field is byte-for-byte the raw id fragment captured from the
request text. -/
theorem c3_id_byte_roundtrip :
    ∀ (σ : Type) (ops : DriverOps σ) (c : Controller σ) msg req out c1,
      parseRequestString msg = some req →
      processOne ops c (.text msg) = .ok (.sentText out, c1) →
      ∃ tail, out = "\x7b\"jsonrpc\":\"2.0\",\"id\":" ++ req.id ++ tail := by
  intro σ ops c msg req out c1 hp hpo
  simp only [processOne, hp] at hpo
  cases hreq : handleRequest ops c req with
  | error e => rw [hreq] at hpo; cases hpo
  | ok pr =>
    obtain ⟨resp, c2⟩ := pr
    rw [hreq] at hpo
    dsimp only [] at hpo
    have hval := handleRequest_validate hreq
    rw [hval] at hpo
    dsimp only [] at hpo
    simp only [Except.ok.injEq, Prod.mk.injEq, SentMessage.sentText.injEq] at hpo
    obtain ⟨ho, hc⟩ := hpo
    obtain ⟨hj, hid, _⟩ := handleRequest_fields hreq
    obtain ⟨tail, htail⟩ := serializeString_id_prefix resp hj
    refine ⟨tail, ?_⟩
    rw [← ho, htail, hid]

/-- Claim C3, witness: the reverse_auth end-to-end exchange (the repo's
test_connect_process_reverse_auth): the answer echoes id 7 byte for byte. -/
theorem c3_witness :
    parseRequestString
        "\x7b\"jsonrpc\":\"2.0\",\"id\":7,\"method\":\"reverse_auth\",\"params\":\x7b\"challenge\":\"abc\"\x7d\x7d" =
      some ⟨"2.0", "7", "reverse_auth", "\x7b\"challenge\":\"abc\"\x7d"⟩
    ∧ processOne unitOps testController
        (.text "\x7b\"jsonrpc\":\"2.0\",\"id\":7,\"method\":\"reverse_auth\",\"params\":\x7b\"challenge\":\"abc\"\x7d\x7d") =
        .ok (.sentText "\x7b\"jsonrpc\":\"2.0\",\"id\":7,\"result\":\x7b\"name\":\"test\"\x7d\x7d", testController)
    ∧ ∃ tail, "\x7b\"jsonrpc\":\"2.0\",\"id\":7,\"result\":\x7b\"name\":\"test\"\x7d\x7d" =
        "\x7b\"jsonrpc\":\"2.0\",\"id\":" ++ "7" ++ tail :=
  ⟨by rfl, by rfl,
   c3_id_byte_roundtrip Unit unitOps testController
     "\x7b\"jsonrpc\":\"2.0\",\"id\":7,\"method\":\"reverse_auth\",\"params\":\x7b\"challenge\":\"abc\"\x7d\x7d"
     ⟨"2.0", "7", "reverse_auth", "\x7b\"challenge\":\"abc\"\x7d"⟩
     "\x7b\"jsonrpc\":\"2.0\",\"id\":7,\"result\":\x7b\"name\":\"test\"\x7d\x7d"
     testController (by rfl) (by rfl)⟩

/-- Claim C4: at serde's data-model level, deserializing the serialization
of any Request or Response whose fields validate yields an equal value; and
at the byte level the serializer omits whichever of result / error is
absent — the output is exactly the object with the remaining fields, no
null member is emitted. -/
theorem c4_serde_roundtrip :
    (∀ r : RequestV, r.validate = .ok () → RequestV.fromJson r.toJson = some r)
    ∧ (∀ r : ResponseV, r.validate = .ok () → ResponseV.fromJson r.toJson = some r)
    ∧ (∀ (r : Response) v, r.result = some v → r.error = none →
        r.serializeString = "\x7b\"jsonrpc\":" ++ encodeJsonString r.jsonrpc ++
          ",\"id\":" ++ r.id ++ ",\"result\":" ++ v ++ "\x7d")
    ∧ (∀ (r : Response) v, r.result = none → r.error = some v →
        r.serializeString = "\x7b\"jsonrpc\":" ++ encodeJsonString r.jsonrpc ++
          ",\"id\":" ++ r.id ++ ",\"error\":" ++ v ++ "\x7d") := by
  refine ⟨?_, ?_, ?_, ?_⟩
  · intro r hv
    rfl
  · intro r hv
    obtain ⟨j, i, res, err⟩ := r
    cases res <;> cases err <;> rfl
  · intro r v hr he
    unfold Response.serializeString
    rw [hr, he]
    simp [String.append_assoc, String.append_empty, String.empty_append]
  · intro r v hr he
    unfold Response.serializeString
    rw [hr, he]
    simp [String.append_assoc, String.append_empty, String.empty_append]

/-- Claim C4, witness: the round trip on the request of the repo's
test_deserialize_request, and the omission of the absent result on the
response of test_serialize_error_response. -/
theorem c4_witness :
    ((⟨"2.0", Json.num 0, "add", Json.arr [Json.num 1, Json.str "2", Json.null]⟩ :
        RequestV).validate = .ok ()
     ∧ RequestV.fromJson
         (RequestV.toJson ⟨"2.0", Json.num 0, "add",
            Json.arr [Json.num 1, Json.str "2", Json.null]⟩) =
         some ⟨"2.0", Json.num 0, "add", Json.arr [Json.num 1, Json.str "2", Json.null]⟩)
    ∧ (⟨"2.0", "0", none, some "\"null arg\""⟩ : Response).serializeString =
        "\x7b\"jsonrpc\":" ++ encodeJsonString "2.0" ++ ",\"id\":" ++ "0" ++
          ",\"error\":" ++ "\"null arg\"" ++ "\x7d" :=
  ⟨⟨by rfl, c4_serde_roundtrip.1
      ⟨"2.0", Json.num 0, "add", Json.arr [Json.num 1, Json.str "2", Json.null]⟩ (by rfl)⟩,
   c4_serde_roundtrip.2.2.2 ⟨"2.0", "0", none, some "\"null arg\""⟩ "\"null arg\""
     (by rfl) (by rfl)⟩

/-- update_pixel_vals overwrites a strip in place: the written strip has the
same length. -/
theorem updatePixelsRow_length {γ α : Type} (m : WasmModule γ α) (i : Nat) :
    ∀ (row : List PixelVal) (g : γ) (j : Nat) (row2 : List PixelVal) (g2 : γ),
      updatePixelsRow m i g j row = .ok (row2, g2) → row2.length = row.length := by
  intro row
  induction row with
  | nil =>
    intro g j row2 g2 h
    simp only [updatePixelsRow, Except.ok.injEq, Prod.mk.injEq] at h
    obtain ⟨h1, h2⟩ := h
    subst h1
    rfl
  | cons hd tl ih =>
    intro g j row2 g2 h
    unfold updatePixelsRow at h
    cases hr : m.getPixelRed g (Int.ofNat i) (Int.ofNat j) with
    | error e => rw [hr] at h; cases h
    | ok pr =>
      obtain ⟨red, g1⟩ := pr
      rw [hr] at h
      dsimp only [] at h
      cases hg : m.getPixelGrn g1 (Int.ofNat i) (Int.ofNat j) with
      | error e => rw [hg] at h; cases h
      | ok pg =>
        obtain ⟨grn, g2x⟩ := pg
        rw [hg] at h
        dsimp only [] at h
        cases hb : m.getPixelBlu g2x (Int.ofNat i) (Int.ofNat j) with
        | error e => rw [hb] at h; cases h
        | ok pb =>
          obtain ⟨blu, g3⟩ := pb
          rw [hb] at h
          dsimp only [] at h
          cases hrec : updatePixelsRow m i g3 (j + 1) tl with
          | error e => rw [hrec] at h; cases h
          | ok prr =>
            obtain ⟨vals, g4⟩ := prr
            rw [hrec] at h
            dsimp only [] at h
            simp only [Except.ok.injEq, Prod.mk.injEq] at h
            obtain ⟨h1, h2⟩ := h
            subst h1
            simp [ih g3 (j + 1) vals g4 hrec]

/-- update_pixel_vals preserves the shape of the pixels array. -/
theorem updatePixelsAll_shape {γ α : Type} (m : WasmModule γ α) :
    ∀ (px : List (List PixelVal)) (g : γ) (i : Nat) px2 g2,
      updatePixelsAll m g i px = .ok (px2, g2) → frameShape px2 = frameShape px := by
  intro px
  induction px with
  | nil =>
    intro g i px2 g2 h
    simp only [updatePixelsAll, Except.ok.injEq, Prod.mk.injEq] at h
    obtain ⟨h1, h2⟩ := h
    subst h1
    rfl
  | cons strip rest ih =>
    intro g i px2 g2 h
    unfold updatePixelsAll at h
    cases hrow : updatePixelsRow m i g 0 strip with
    | error e => rw [hrow] at h; cases h
    | ok pr =>
      obtain ⟨vals, g1⟩ := pr
      rw [hrow] at h
      dsimp only [] at h
      cases hrest : updatePixelsAll m g1 (i + 1) rest with
      | error e => rw [hrest] at h; cases h
      | ok prr =>
        obtain ⟨strips, g3⟩ := prr
        rw [hrest] at h
        dsimp only [] at h
        simp only [Except.ok.injEq, Prod.mk.injEq] at h
        obtain ⟨h1, h2⟩ := h
        subst h1
        simp only [frameShape, List.map_cons]
        rw [updatePixelsRow_length m i strip g 0 vals g1 hrow]
        have := ih g1 (i + 1) strips g3 hrest
        simp only [frameShape] at this
        rw [this]

/-- make_pixels_array produces one default pixel per layout location. -/
theorem makePixelsArray_shape {α : Type} (layout : LayoutConfig α) :
    frameShape (makePixelsArray layout) = layoutShape layout := by
  simp [makePixelsArray, frameShape, layoutShape, List.map_map, Function.comp]

/-- WasmProgram::update_pixel_vals preserves the frame shape, the module
and nothing else of the record but state and pixels. -/
theorem updatePixelVals_shape {γ α : Type} {p p2 : WasmProgram γ α}
    (h : WasmProgram.updatePixelVals p = .ok p2) :
    frameShape p2.pixels = frameShape p.pixels ∧ p2.module = p.module := by
  unfold WasmProgram.updatePixelVals at h
  cases hall : updatePixelsAll p.module p.state 0 p.pixels with
  | error e => rw [hall] at h; cases h
  | ok pr =>
    obtain ⟨px, g⟩ := pr
    rw [hall] at h
    dsimp only [] at h
    simp only [Except.ok.injEq] at h
    subst h
    exact ⟨updatePixelsAll_shape p.module p.pixels p.state 0 px g hall, rfl⟩

/-- Claim C9: after a successful WasmProgram::new the frame has exactly the
layout's shape — as many strips as the layout and, strip by strip, as many
pixels as the layout's strip — and every successful tick preserves that
shape. -/
theorem c9_frame_shape :
    (∀ (γ α : Type) (layout : LayoutConfig α) (m : WasmModule γ α) (g0 : γ) p,
        WasmProgram.new layout m g0 = .ok p →
        frameShape p.pixels = layoutShape layout ∧
        p.pixels.length = layout.pixel_locations.length)
    ∧ (∀ (γ α : Type) (p p2 : WasmProgram γ α),
        WasmProgram.tick p = .ok p2 → frameShape p2.pixels = frameShape p.pixels) := by
  constructor
  · intro γ α layout m g0 p h
    unfold WasmProgram.new at h
    cases hlk : linkHostImports m hostLinkCalls with
    | error e => rw [hlk] at h; cases h
    | ok u =>
      rw [hlk] at h
      dsimp only [] at h
      cases hfx : findAllExports m requiredExports with
      | error e => rw [hfx] at h; cases h
      | ok u2 =>
        rw [hfx] at h
        dsimp only [] at h
        cases hns : m.initLayoutSetNumStrips g0 (Int.ofNat layout.pixel_locations.length) with
        | error e => rw [hns] at h; cases h
        | ok g1 =>
          rw [hns] at h
          dsimp only [] at h
          cases has : initAllStrips m 0 g1 layout.pixel_locations with
          | error e => rw [has] at h; cases h
          | ok g2 =>
            rw [has] at h
            dsimp only [] at h
            cases hd : m.initLayoutDone g2 with
            | error e => rw [hd] at h; cases h
            | ok g3 =>
              rw [hd] at h
              dsimp only [] at h
              have hsh := (updatePixelVals_shape h).1
              rw [makePixelsArray_shape layout] at hsh
              refine ⟨hsh, ?_⟩
              have := congrArg List.length hsh
              simpa [frameShape, layoutShape] using this
  · intro γ α p p2 h
    unfold WasmProgram.tick at h
    cases ht : p.module.tickFn p.state with
    | error e => rw [ht] at h; cases h
    | ok g1 =>
      rw [ht] at h
      dsimp only [] at h
      exact (updatePixelVals_shape h).1

/-- Claim C9, witness: for the 2-strip layout and the minimal guest, new
succeeds and the frame shape is the layout shape [2, 1]. -/
theorem c9_witness :
    WasmProgram.new layout21 trivGuest () = .ok trivProgram
    ∧ frameShape trivProgram.pixels = layoutShape layout21
    ∧ trivProgram.pixels.length = 2 :=
  ⟨by rfl,
   (c9_frame_shape.1 Unit Unit layout21 trivGuest () trivProgram (by rfl)).1,
   (c9_frame_shape.1 Unit Unit layout21 trivGuest () trivProgram (by rfl)).2⟩

theorem getD_range_map {β : Type} (n : Nat) (f : Nat → β) (i : Nat) (d : β) :
    ((List.range n).map f).getD i d = if i < n then f i else d := by
  by_cases hi : i < n
  · rw [List.getD_eq_getElem?_getD, List.getElem?_map, List.getElem?_range hi]
    simp [hi]
  · rw [List.getD_eq_default, if_neg hi]
    simpa using le_of_not_lt hi

theorem range_getD_lengths {β : Type} :
    ∀ l : List (List β),
      (List.range l.length).map (fun a => (l.getD a []).length) = l.map List.length := by
  intro l
  induction l with
  | nil => rfl
  | cons hd tl ih =>
    simp only [List.length_cons, List.range_succ_eq_map, List.map_cons, List.map_map,
      List.getD_cons_zero]
    congr 1

/-- With state-preserving total pixel readers, update_pixel_vals rewrites a
strip pointwise from the three per-channel reads, truncated to bytes. -/
theorem updatePixelsRow_pure {γ α : Type} (m : WasmModule γ α)
    (fr fg fb : γ → Int → Int → Nat)
    (hr : ∀ g i j, m.getPixelRed g i j = .ok (fr g i j, g))
    (hg : ∀ g i j, m.getPixelGrn g i j = .ok (fg g i j, g))
    (hb : ∀ g i j, m.getPixelBlu g i j = .ok (fb g i j, g))
    (i : Nat) (g : γ) :
    ∀ (row : List PixelVal) (j0 : Nat),
      updatePixelsRow m i g j0 row =
        .ok ((List.range row.length).map (fun k =>
          PixelVal.new (fr g (Int.ofNat i) (Int.ofNat (j0 + k)) % 256)
                       (fg g (Int.ofNat i) (Int.ofNat (j0 + k)) % 256)
                       (fb g (Int.ofNat i) (Int.ofNat (j0 + k)) % 256)), g) := by
  intro row
  induction row with
  | nil => intro j0; simp [updatePixelsRow]
  | cons hd tl ih =>
    intro j0
    simp only [updatePixelsRow]
    rw [hr]
    dsimp only []
    rw [hg]
    dsimp only []
    rw [hb]
    dsimp only []
    rw [ih (j0 + 1)]
    dsimp only []
    simp only [List.length_cons, List.range_succ_eq_map, List.map_cons, List.map_map]
    refine congrArg (fun l => Except.ok (l, g)) ?_
    congr 1
    apply List.map_congr_left
    intro k _
    simp only [Function.comp_apply]
    rw [show j0 + 1 + k = j0 + (k + 1) from by omega]

/-- With state-preserving total pixel readers, update_pixel_vals rewrites
the whole pixels array pointwise in layout order. -/
theorem updatePixelsAll_pure {γ α : Type} (m : WasmModule γ α)
    (fr fg fb : γ → Int → Int → Nat)
    (hr : ∀ g i j, m.getPixelRed g i j = .ok (fr g i j, g))
    (hg : ∀ g i j, m.getPixelGrn g i j = .ok (fg g i j, g))
    (hb : ∀ g i j, m.getPixelBlu g i j = .ok (fb g i j, g))
    (g : γ) :
    ∀ (px : List (List PixelVal)) (i0 : Nat),
      updatePixelsAll m g i0 px =
        .ok ((List.range px.length).map (fun a =>
          (List.range (px.getD a []).length).map (fun k =>
            PixelVal.new (fr g (Int.ofNat (i0 + a)) (Int.ofNat k) % 256)
                         (fg g (Int.ofNat (i0 + a)) (Int.ofNat k) % 256)
                         (fb g (Int.ofNat (i0 + a)) (Int.ofNat k) % 256))), g) := by
  intro px
  induction px with
  | nil => intro i0; simp [updatePixelsAll]
  | cons strip rest ih =>
    intro i0
    simp only [updatePixelsAll]
    rw [updatePixelsRow_pure m fr fg fb hr hg hb i0 g strip 0]
    dsimp only []
    rw [ih (i0 + 1)]
    dsimp only []
    simp only [List.length_cons, List.range_succ_eq_map, List.map_cons, List.map_map,
      List.getD_cons_zero, List.getD_cons_succ]
    refine congrArg (fun l => Except.ok (l, g)) ?_
    congr 1
    · apply List.map_congr_left
      intro k _
      simp
    · apply List.map_congr_left
      intro a _
      simp only [Function.comp_apply, List.getD_cons_succ]
      rw [show i0 + 1 + a = i0 + (a + 1) from by omega]

/-- Claim C7 (amended): tick first calls the guest tick export; then for
every (strip i, pixel j) in layout order it calls the three guest exports
getPixelRed, getPixelGrn, getPixelBlu, truncates each u32 result to a byte
(`as u8`, i.e. % 256), and writes the triple into the owned frame.  Stated
for guests whose pixel readers are total and state-preserving, which makes
the per-pixel values expressible. -/
theorem c7_tick_three_exports :
    ∀ (γ α : Type) (p p2 : WasmProgram γ α) (fr fg fb : γ → Int → Int → Nat),
      (∀ g i j, p.module.getPixelRed g i j = .ok (fr g i j, g)) →
      (∀ g i j, p.module.getPixelGrn g i j = .ok (fg g i j, g)) →
      (∀ g i j, p.module.getPixelBlu g i j = .ok (fb g i j, g)) →
      WasmProgram.tick p = .ok p2 →
      ∃ g1, p.module.tickFn p.state = .ok g1 ∧ p2.state = g1 ∧ p2.module = p.module ∧
        frameShape p2.pixels = frameShape p.pixels ∧
        ∀ i j, j < (p.pixels.getD i []).length →
          (p2.pixels.getD i []).getD j PixelVal.defaultVal =
            PixelVal.new (fr g1 (Int.ofNat i) (Int.ofNat j) % 256)
                         (fg g1 (Int.ofNat i) (Int.ofNat j) % 256)
                         (fb g1 (Int.ofNat i) (Int.ofNat j) % 256) := by
  intro γ α p p2 fr fg fb hr hg hb htick
  unfold WasmProgram.tick at htick
  cases ht : p.module.tickFn p.state with
  | error e => rw [ht] at htick; cases htick
  | ok g1 =>
    rw [ht] at htick
    dsimp only [] at htick
    unfold WasmProgram.updatePixelVals at htick
    dsimp only [] at htick
    rw [updatePixelsAll_pure p.module fr fg fb hr hg hb g1 p.pixels 0] at htick
    dsimp only [] at htick
    simp only [Except.ok.injEq] at htick
    subst htick
    refine ⟨g1, rfl, rfl, rfl, ?_, ?_⟩
    · have hrgl := range_getD_lengths (β := PixelVal) p.pixels
      simp only [frameShape, List.map_map]
      rw [← hrgl]
      apply List.map_congr_left
      intro a _
      simp
    · intro i j hj
      by_cases hi : i < p.pixels.length
      · rw [getD_range_map, if_pos hi, getD_range_map, if_pos hj]
        simp
      · exfalso
        have hempty : p.pixels.getD i [] = [] :=
          List.getD_eq_default _ _ (by simpa using le_of_not_lt hi)
        rw [hempty] at hj
        simp at hj

/-- Claim C7, counterexample to the claim as stated: a guest exporting the
spec's single packed accessor getPixelVal (with every other listed export)
fails initialization — the host resolves getPixelRed, getPixelGrn and
getPixelBlu instead and never a getPixelVal export. -/
theorem c7_counterexample :
    exceptOk (WasmProgram.new layout21 specAbiGuest ()) = false := by
  rfl

/-- Claim C7, witness: the amended theorem applied to the minimal guest,
whose constant reads 300/2/3 show the u8 truncation (300 % 256 = 44). -/
theorem c7_witness :
    ∃ g1, trivProgram.module.tickFn trivProgram.state = .ok g1 ∧
      trivProgram.state = g1 ∧ trivProgram.module = trivProgram.module ∧
      frameShape trivProgram.pixels = frameShape trivProgram.pixels ∧
      ∀ i j, j < (trivProgram.pixels.getD i []).length →
        (trivProgram.pixels.getD i []).getD j PixelVal.defaultVal =
          PixelVal.new (300 % 256) (2 % 256) (3 % 256) :=
  c7_tick_three_exports Unit Unit trivProgram trivProgram
    (fun _ _ _ => 300) (fun _ _ _ => 2) (fun _ _ _ => 3)
    (fun _ _ _ => rfl) (fun _ _ _ => rfl) (fun _ _ _ => rfl) (by rfl)

theorem linkImport_error {γ α : Type} (m : WasmModule γ α) (a b e : String)
    (h : linkImport m a b = .error e) : e = w3FunctionNotFoundMsg := by
  unfold linkImport at h
  by_cases hab : (a, b) ∈ m.imports
  · simp [hab] at h
  · simp only [hab, if_false, Except.error.injEq] at h
    exact h.symm

theorem linkHostImports_error {γ α : Type} (m : WasmModule γ α) :
    ∀ (l : List (String × String × Bool)) (e : String),
      linkHostImports m l = .error e → e = w3FunctionNotFoundMsg := by
  intro l
  induction l with
  | nil => intro e h; simp [linkHostImports] at h
  | cons entry rest ih =>
    intro e h
    obtain ⟨a, b, opt⟩ := entry
    unfold linkHostImports at h
    cases hli : linkImport m a b with
    | ok u =>
      rw [hli] at h
      dsimp only [] at h
      exact ih e h
    | error e2 =>
      rw [hli] at h
      dsimp only [] at h
      by_cases hcond : opt = true ∧ e2 = w3FunctionNotFoundMsg
      · rw [if_pos hcond] at h
        exact ih e h
      · rw [if_neg hcond] at h
        simp only [Except.error.injEq] at h
        subst h
        exact linkImport_error m a b _ hli

theorem findAllExports_missing {γ α : Type} (m : WasmModule γ α) :
    ∀ names, (∃ n, n ∈ names ∧ n ∉ m.exports) →
      findAllExports m names = .error w3FunctionNotFoundMsg := by
  intro names
  induction names with
  | nil =>
    rintro ⟨n, hn, _⟩
    cases hn
  | cons a rest ih =>
    rintro ⟨n, hn, hnot⟩
    unfold findAllExports
    by_cases ha : a ∈ m.exports
    · simp only [findExport, ha, if_true]
      apply ih
      rcases List.mem_cons.mp hn with heq | hmem
      · subst heq
        exact absurd ha hnot
      · exact ⟨n, hmem, hnot⟩
    · simp [findExport, ha]

theorem linkHostImports_ok_iff {γ α : Type} (m : WasmModule γ α) :
    linkHostImports m hostLinkCalls = .ok () ↔ ("env", "abort") ∈ m.imports := by
  constructor
  · intro h
    by_contra habs
    simp [linkHostImports, hostLinkCalls, linkImport, habs] at h
  · intro habort
    by_cases hhsv : ("colorConvert", "hsvToRgbEncoded") ∈ m.imports
    · simp [linkHostImports, hostLinkCalls, linkImport, habort, hhsv]
    · simp [linkHostImports, hostLinkCalls, linkImport, habort, hhsv]

/-- Claim C8 (amended): the only host imports WasmProgram::new links are
env.abort — required in the sense that a guest not importing it fails
initialization — and colorConvert.hsvToRgbEncoded, whose absence is
tolerated (the link phase succeeds iff the guest imports env.abort); there
is no env.seed host import; and a missing required export fails
initialization. -/
theorem c8_host_imports :
    (∀ (γ α : Type) (m : WasmModule γ α),
        linkHostImports m hostLinkCalls = .ok () ↔ ("env", "abort") ∈ m.imports)
    ∧ (∀ (γ α : Type) (m : WasmModule γ α) (layout : LayoutConfig α) (g0 : γ),
        ("env", "abort") ∉ m.imports →
        WasmProgram.new layout m g0 = .error (.wasm3 w3FunctionNotFoundMsg))
    ∧ (∀ (γ α : Type) (m : WasmModule γ α) (layout : LayoutConfig α) (g0 : γ),
        "tick" ∉ m.exports →
        WasmProgram.new layout m g0 = .error (.wasm3 w3FunctionNotFoundMsg)) := by
  refine ⟨?_, ?_, ?_⟩
  · intro γ α m
    exact linkHostImports_ok_iff m
  · intro γ α m layout g0 habs
    simp [WasmProgram.new, linkHostImports, hostLinkCalls, linkImport, habs]
  · intro γ α m layout g0 htick
    unfold WasmProgram.new
    cases hlk : linkHostImports m hostLinkCalls with
    | error e =>
      have he := linkHostImports_error m hostLinkCalls e hlk
      subst he
      rfl
    | ok u =>
      dsimp only []
      have hfx := findAllExports_missing m requiredExports
        ⟨"tick", by simp [requiredExports], htick⟩
      rw [hfx]

/-- Claim C8, counterexample to the claim as stated: env.seed is not among
the (module, name) pairs WasmProgram::new links. -/
theorem c8_counterexample :
    ((hostLinkCalls.map (fun x => (x.1, x.2.1))).contains ("env", "seed")) = false := by
  rfl

/-- Claim C8, witness: a guest missing the tick export fails initialization
with the FunctionNotFound message, and the link phase for the minimal guest
(which imports env.abort but not the optional colorConvert import)
succeeds. -/
theorem c8_witness :
    ("tick" ∉ noTickGuest.exports
     ∧ WasmProgram.new layout21 noTickGuest () = .error (.wasm3 w3FunctionNotFoundMsg))
    ∧ (linkHostImports trivGuest hostLinkCalls = .ok () ↔
        ("env", "abort") ∈ trivGuest.imports) :=
  ⟨⟨by decide, c8_host_imports.2.2 Unit Unit noTickGuest layout21 () (by decide)⟩,
   c8_host_imports.1 Unit Unit trivGuest⟩

end LedBetter
